import Mathlib

/-!
Shallow embedding of the structural-geometry ingestion pipeline of the
`basic_webgl` repository (file `docs/pdb-loader.js`): the PDB-style
structural-record parse, distance-based bond inference, molecule
centering, backbone-trace extraction, the procedural mesh factories and
the OBJ-style polygon-mesh parse.

Modelling conventions:
* A JS string is its list of characters (`JSStr`).
* A JS number is `Option ℚ`: `some q` is the finite value `q` under
  idealized exact arithmetic (float rounding is not modelled), and
  `none` stands for a non-finite value.  In every computation reached by
  the functions below a non-finite value is `NaN` (the only divisions by
  zero that occur are `0/0`), and the arithmetic helpers propagate
  `none` exactly as JS propagates `NaN`.
* `parseInt` / `parseFloat` are embedded by `parseIntJS` / `parseFloatJS`
  (decimal prefix parsing, `none` for `NaN`; the hexadecimal `0x` corner
  of `parseInt` is not modelled - no caller feeds it hex text).
* `Math.sin`, `Math.cos`, `Math.sqrt` and `Math.PI` have no exact
  rational counterpart; functions using them take them as explicit
  arguments (`sinQ cosQ sqrtQ : ℚ → ℚ`, `piQ : ℚ`), lifted over `none`
  exactly as JS lifts these functions over `NaN`.  The one comparison
  `Math.sqrt s < t` that feeds a branch in `calculateBonds` is embedded
  by the decidable `sqrtLt`, justified against `Real.sqrt` by
  `sqrtLt_iff_real`.
* `Float32Array` / `Uint16Array` construction is modelled as the
  identity on the underlying lists (value rounding and 16-bit index
  wrap-around are float/size limits outside the idealized model).
-/

/-- A JS string, modelled as its list of characters. -/
abbrev JSStr := List Char

/-- Coerce a Lean string literal to the JS string model. -/
def str (s : String) : JSStr := s.toList

/-- JS `String.prototype.trim`: drop leading and trailing whitespace. -/
def jsTrim (s : JSStr) : JSStr :=
  ((s.dropWhile Char.isWhitespace).reverse.dropWhile Char.isWhitespace).reverse

/-- JS `String.prototype.substring(a, b)` for `a ≤ b`: the characters at
positions `[a, b)`, clamped to the string length. -/
def jsSubstring (s : JSStr) (a b : Nat) : JSStr := (s.drop a).take (b - a)

/-- Auxiliary for `splitChar`: accumulates the current field (reversed). -/
def splitCharAux (sep : Char) : JSStr → JSStr → List JSStr
  | [], acc => [acc.reverse]
  | c :: cs, acc =>
    if c = sep then acc.reverse :: splitCharAux sep cs []
    else splitCharAux sep cs (c :: acc)

/-- JS `String.prototype.split(sep)` for a one-character separator:
fields between separators, empty fields kept. -/
def splitChar (sep : Char) (s : JSStr) : List JSStr := splitCharAux sep s []

/-- Auxiliary for `jsSplitWs`: raw split at every whitespace character. -/
def splitWsAux : JSStr → JSStr → List JSStr
  | [], acc => [acc.reverse]
  | c :: cs, acc =>
    if c.isWhitespace then acc.reverse :: splitWsAux cs []
    else splitWsAux cs (c :: acc)

/-- JS `String.prototype.split(/\s+/)` as applied to an already trimmed
line: the maximal runs of non-whitespace characters. -/
def jsSplitWs (s : JSStr) : List JSStr :=
  (splitWsAux s []).filter (fun t => t ≠ [])

/-- The longest leading run of decimal digits. -/
def leadDigits : JSStr → JSStr
  | [] => []
  | c :: cs => if c.isDigit then c :: leadDigits cs else []

/-- Numeric value of a digit string. -/
def digitsVal (ds : JSStr) : Nat :=
  ds.foldl (fun n c => 10 * n + (c.toNat - 48)) 0

/-- JS `parseInt(s)` (decimal): skip leading whitespace, optional sign,
then the longest digit prefix; `NaN` (`none`) when no digit follows. -/
def parseIntJS (s : JSStr) : Option Int :=
  let t := s.dropWhile Char.isWhitespace
  match t with
  | '-' :: r => let ds := leadDigits r; if ds = [] then none else some (-(digitsVal ds : Int))
  | '+' :: r => let ds := leadDigits r; if ds = [] then none else some (digitsVal ds : Int)
  | r => let ds := leadDigits r; if ds = [] then none else some (digitsVal ds : Int)

/-- JS `parseFloat(s)`: skip leading whitespace, optional sign, decimal
mantissa (digits, optional point and fraction digits), optional
exponent; `NaN` (`none`) when no mantissa digit is present.  An
incomplete exponent part is ignored, as in JS prefix parsing. -/
def parseFloatJS (s : JSStr) : Option ℚ :=
  let t := s.dropWhile Char.isWhitespace
  let sr : ℚ × JSStr :=
    match t with
    | '-' :: r => (-1, r)
    | '+' :: r => (1, r)
    | r => (1, r)
  let intDs := leadDigits sr.2
  let r1 := sr.2.drop intDs.length
  let fr : JSStr × JSStr :=
    match r1 with
    | '.' :: r => (leadDigits r, r.drop (leadDigits r).length)
    | _ => ([], r1)
  if intDs = [] ∧ fr.1 = [] then none
  else
    let mant : ℚ := (digitsVal intDs : ℚ) + (digitsVal fr.1 : ℚ) / ((10 : ℚ) ^ fr.1.length)
    let e : Int :=
      match fr.2 with
      | c :: r3 =>
        if c = 'e' ∨ c = 'E' then
          match r3 with
          | '-' :: r4 => let ds := leadDigits r4; if ds = [] then 0 else -(digitsVal ds : Int)
          | '+' :: r4 => let ds := leadDigits r4; if ds = [] then 0 else (digitsVal ds : Int)
          | r4 => let ds := leadDigits r4; if ds = [] then 0 else (digitsVal ds : Int)
        else 0
      | [] => 0
    some (sr.1 * mant * (10 : ℚ) ^ e)

/-- JS `+` on numbers: `NaN` propagates. -/
def optAdd : Option ℚ → Option ℚ → Option ℚ
  | some a, some b => some (a + b)
  | _, _ => none

/-- JS `-` on numbers: `NaN` propagates. -/
def optSub : Option ℚ → Option ℚ → Option ℚ
  | some a, some b => some (a - b)
  | _, _ => none

/-- JS `*` on numbers: `NaN` propagates. -/
def optMul : Option ℚ → Option ℚ → Option ℚ
  | some a, some b => some (a * b)
  | _, _ => none

/-- JS `/` on numbers.  Every division by zero reached below is `0/0`,
which is `NaN`; `NaN` propagates. -/
def optDiv : Option ℚ → Option ℚ → Option ℚ
  | some a, some b => if b = 0 then none else some (a / b)
  | _, _ => none

/-- Sum of a list of JS numbers (left fold, as the source accumulates). -/
def optSum (l : List (Option ℚ)) : Option ℚ := l.foldl optAdd (some 0)

/-! ## Structural-record (PDB) data model and parse -/

/-- One decoded `ATOM`/`HETATM` record (`parsePDB`'s per-line object).
Numeric fields are `none` when the column was unreadable (`NaN`). -/
structure Atom where
  serial : Option Int
  name : JSStr
  resName : JSStr
  chainId : JSStr
  resSeq : Option Int
  x : Option ℚ
  y : Option ℚ
  z : Option ℚ
  element : JSStr
deriving DecidableEq

instance : Inhabited Atom :=
  ⟨{ serial := none, name := [], resName := [], chainId := [], resSeq := none,
     x := none, y := none, z := none, element := [] }⟩

/-- `guessElement` of the source: first character of the trimmed atom
name, mapped through the fixed table, defaulting to carbon. -/
def guessElement (atomName : JSStr) : JSStr :=
  let a := jsTrim atomName
  match a with
  | [] => str "C"
  | c :: _ =>
    if c = 'C' then str "C"
    else if c = 'N' then str "N"
    else if c = 'O' then str "O"
    else if c = 'S' then str "S"
    else if c = 'H' then str "H"
    else if c = 'P' then str "P"
    else str "C"

/-- The fixed-column field extraction of one `ATOM`/`HETATM` line
(the object literal inside `parsePDB`'s loop). -/
def parseAtomLine (line : JSStr) : Atom :=
  { serial := parseIntJS (jsTrim (jsSubstring line 6 11))
    name := jsTrim (jsSubstring line 12 16)
    resName := jsTrim (jsSubstring line 17 20)
    chainId := jsTrim (jsSubstring line 21 22)
    resSeq := parseIntJS (jsTrim (jsSubstring line 22 26))
    x := parseFloatJS (jsTrim (jsSubstring line 30 38))
    y := parseFloatJS (jsTrim (jsSubstring line 38 46))
    z := parseFloatJS (jsTrim (jsSubstring line 46 54))
    element :=
      let e := jsTrim (jsSubstring line 76 78)
      if e = [] then guessElement (jsTrim (jsSubstring line 12 16)) else e }

/-- The record filter of `parsePDB`: lines starting with `ATOM  ` (two
trailing blanks) or `HETATM`. -/
def isAtomRecord (line : JSStr) : Bool :=
  List.isPrefixOf (str "ATOM  ") line || List.isPrefixOf (str "HETATM") line

/-- `text.split('\n')` of the source. -/
def splitLines (text : JSStr) : List JSStr := splitChar '\n' text

/-- `centerMolecule`: subtract the arithmetic mean position from every
atom; no-op on an empty list.  (The source mutates in place; the
embedding returns the shifted list.) -/
def centerMolecule (atoms : List Atom) : List Atom :=
  if atoms = [] then atoms
  else
    let n : ℚ := atoms.length
    let centerX := optDiv (optSum (atoms.map (·.x))) (some n)
    let centerY := optDiv (optSum (atoms.map (·.y))) (some n)
    let centerZ := optDiv (optSum (atoms.map (·.z))) (some n)
    atoms.map (fun a =>
      { a with x := optSub a.x centerX, y := optSub a.y centerY, z := optSub a.z centerZ })

/-! ## Bond inference -/

/-- One inferred bond.  The source stores the Euclidean distance
`Math.sqrt distSq`; the embedding stores the squared distance, which
determines it (square root is injective on nonnegatives). -/
structure Bond where
  atom1 : Nat
  atom2 : Nat
  distSq : Option ℚ
deriving DecidableEq

/-- `dx*dx + dy*dy + dz*dz` of `calculateBonds` (squared distance). -/
def optDistSq (a b : Atom) : Option ℚ :=
  let dx := optSub a.x b.x
  let dy := optSub a.y b.y
  let dz := optSub a.z b.z
  optAdd (optAdd (optMul dx dx) (optMul dy dy)) (optMul dz dz)

/-- The branch `Math.sqrt s < t` of `calculateBonds`, decided on the
squared distance: for `0 ≤ s`, `Math.sqrt s < t` iff `0 < t ∧ s < t*t`
(`sqrtLt_iff_real` below); `NaN < t` is false. -/
def sqrtLt (s : Option ℚ) (t : ℚ) : Bool :=
  match s with
  | none => false
  | some q => decide (0 < t ∧ q < t * t)

/-- `calculateBonds`: the exhaustive pairwise scan of the source. -/
def calculateBonds (atoms : List Atom) (maxBondDistance : ℚ) : List Bond :=
  (List.range atoms.length).flatMap (fun i =>
    (List.range' (i + 1) (atoms.length - (i + 1))).filterMap (fun j =>
      let atom1 := atoms.getD i default
      let atom2 := atoms.getD j default
      if atom1.element = str "H" ∨ atom2.element = str "H" then none
      else
        let dSq := optDistSq atom1 atom2
        if sqrtLt dSq maxBondDistance then
          some { atom1 := i, atom2 := j, distSq := dSq }
        else none))

/-- `parsePDB`'s result record. -/
structure Protein where
  atoms : List Atom
  bonds : List Bond
deriving DecidableEq

/-- `parsePDB`: decode every `ATOM`/`HETATM` line, center the molecule,
then infer bonds with the default threshold `1.8`. -/
def parsePDB (text : JSStr) : Protein :=
  let atoms := ((splitLines text).filter (fun l => isAtomRecord l)).map parseAtomLine
  let centered := centerMolecule atoms
  { atoms := centered, bonds := calculateBonds centered (9 / 5) }

/-! ## Backbone-trace extraction -/

/-- The per-CA projection pushed into a chain group by
`extractBackboneTrace` (`{resSeq, x, y, z, resName}`). -/
structure BBAtom where
  resSeq : Option Int
  x : Option ℚ
  y : Option ℚ
  z : Option ℚ
  resName : JSStr
deriving DecidableEq

/-- One backbone segment: start and end positions and the owning chain.
(`segStart`/`segEnd` stand for the source's `start`/`end` fields.) -/
structure BackboneSegment where
  segStart : Option ℚ × Option ℚ × Option ℚ
  segEnd : Option ℚ × Option ℚ × Option ℚ
  chainId : JSStr
deriving DecidableEq

/-- `atom.chainId || 'A'`: the empty string is falsy in JS. -/
def effChain (a : Atom) : JSStr := if a.chainId = [] then str "A" else a.chainId

/-- `{resSeq, x, y, z, resName}` pushed per CA atom. -/
def projBB (a : Atom) : BBAtom :=
  { resSeq := a.resSeq, x := a.x, y := a.y, z := a.z, resName := a.resName }

/-- Append one entry to the chain map, creating the key on first use
(JS object insertion order: first-seen keys first). -/
def pushChain (chains : List (JSStr × List BBAtom)) (c : JSStr) (b : BBAtom) :
    List (JSStr × List BBAtom) :=
  match chains with
  | [] => [(c, [b])]
  | cg :: rest => if cg.1 = c then (cg.1, cg.2 ++ [b]) :: rest else cg :: pushChain rest c b

/-- The grouping loop of `extractBackboneTrace`: CA atoms only, keyed by
effective chain id. -/
def buildChains (atoms : List Atom) : List (JSStr × List BBAtom) :=
  atoms.foldl
    (fun chains a =>
      if a.name = str "CA" then pushChain chains (effChain a) (projBB a) else chains)
    []

/-- The sort comparator `(a, b) => a.resSeq - b.resSeq` (ascending by
residue sequence number; a `NaN` comparator value leaves the JS order
unspecified, so theorems below assume numeric `resSeq`). -/
def resSeqLe (a b : BBAtom) : Bool := decide (a.resSeq.getD 0 ≤ b.resSeq.getD 0)

/-- `Math.abs(next.resSeq - current.resSeq) <= 2`; false on `NaN`. -/
def gapOk (cur nxt : BBAtom) : Bool :=
  match cur.resSeq, nxt.resSeq with
  | some m, some n => decide ((n - m).natAbs ≤ 2)
  | _, _ => false

/-- The segment loop over one sorted chain: one segment per adjacent
pair whose residue gap passes `gapOk`. -/
def segsOf (chainId : JSStr) (g : List BBAtom) : List BackboneSegment :=
  (g.zip g.tail).filterMap (fun p =>
    if gapOk p.1 p.2 then
      some { segStart := (p.1.x, p.1.y, p.1.z), segEnd := (p.2.x, p.2.y, p.2.z),
             chainId := chainId }
    else none)

/-- `extractBackboneTrace`'s result record. -/
structure BackboneTrace where
  atoms : List BBAtom
  segments : List BackboneSegment
  chains : List JSStr

/-- `extractBackboneTrace`: group CA atoms per chain, sort each group by
residue sequence number, link adjacent pairs within gap tolerance.
(JS `for..in` may enumerate digit-only chain keys first; that reorders
the flattened lists but not which segments exist, which is all the
claims speak about.) -/
def extractBackboneTrace (atoms : List Atom) : BackboneTrace :=
  let chains := buildChains atoms
  let sorted := chains.map (fun cg => (cg.1, cg.2.mergeSort resSeqLe))
  { atoms := sorted.flatMap (fun cg => cg.2)
    segments := sorted.flatMap (fun cg => segsOf cg.1 cg.2)
    chains := chains.map (fun cg => cg.1) }

/-! ## Primitive mesh factories -/

/-- The flat vertex/normal/index buffer produced by every mesh factory
(`Float32Array`/`Uint16Array` construction modelled as identity). -/
structure MeshData where
  vertices : List (Option ℚ)
  normals : List (Option ℚ)
  indices : List Nat
deriving DecidableEq

/-- JS unary minus: `NaN` propagates. -/
def optNeg (a : Option ℚ) : Option ℚ := a.map Neg.neg

/-- `createCube`: the fixed 24-vertex, 36-index layout of the source. -/
def createCube (size : Option ℚ) : MeshData :=
  let s := size
  let m := optNeg s
  let z : Option ℚ := some 0
  let p : Option ℚ := some 1
  let n : Option ℚ := some (-1)
  { vertices :=
      [m, m, s,  s, m, s,  s, s, s,  m, s, s,
       m, m, m,  m, s, m,  s, s, m,  s, m, m,
       m, s, m,  m, s, s,  s, s, s,  s, s, m,
       m, m, m,  s, m, m,  s, m, s,  m, m, s,
       s, m, m,  s, s, m,  s, s, s,  s, m, s,
       m, m, m,  m, m, s,  m, s, s,  m, s, m]
    normals :=
      [z, z, p,  z, z, p,  z, z, p,  z, z, p,
       z, z, n,  z, z, n,  z, z, n,  z, z, n,
       z, p, z,  z, p, z,  z, p, z,  z, p, z,
       z, n, z,  z, n, z,  z, n, z,  z, n, z,
       p, z, z,  p, z, z,  p, z, z,  p, z, z,
       n, z, z,  n, z, z,  n, z, z,  n, z, z]
    indices :=
      [0, 1, 2,  0, 2, 3,  4, 5, 6,  4, 6, 7,
       8, 9, 10,  8, 10, 11,  12, 13, 14,  12, 14, 15,
       16, 17, 18,  16, 18, 19,  20, 21, 22,  20, 22, 23] }

/-- The per-grid-cell vertex and normal of `createSphere`
(`theta = lat*π/latitudeBands`, `phi = lon*2*π/longitudeBands`; with
zero bands the division is `0/0`, i.e. `NaN`). -/
def sphereCell (sinQ cosQ : ℚ → ℚ) (piQ : ℚ) (radius : Option ℚ)
    (latitudeBands longitudeBands lat lon : Nat) :
    (Option ℚ × Option ℚ × Option ℚ) × (Option ℚ × Option ℚ × Option ℚ) :=
  let theta := optDiv (some ((lat : ℚ) * piQ)) (some (latitudeBands : ℚ))
  let sinTheta := theta.map sinQ
  let cosTheta := theta.map cosQ
  let phi := optDiv (some ((lon : ℚ) * 2 * piQ)) (some (longitudeBands : ℚ))
  let sinPhi := phi.map sinQ
  let cosPhi := phi.map cosQ
  let x := optMul cosPhi sinTheta
  let y := cosTheta
  let z := optMul sinPhi sinTheta
  ((optMul radius x, optMul radius y, optMul radius z), (x, y, z))

/-- `createSphere`: UV sphere over a `(latitudeBands+1) ×
(longitudeBands+1)` vertex grid, two triangles per quad cell. -/
def createSphere (sinQ cosQ : ℚ → ℚ) (piQ : ℚ) (radius : Option ℚ)
    (latitudeBands longitudeBands : Nat) : MeshData :=
  let cells := (List.range (latitudeBands + 1)).flatMap (fun lat =>
    (List.range (longitudeBands + 1)).map (fun lon =>
      sphereCell sinQ cosQ piQ radius latitudeBands longitudeBands lat lon))
  { vertices := cells.flatMap (fun c => [c.1.1, c.1.2.1, c.1.2.2])
    normals := cells.flatMap (fun c => [c.2.1, c.2.2.1, c.2.2.2])
    indices := (List.range latitudeBands).flatMap (fun lat =>
      (List.range longitudeBands).flatMap (fun lon =>
        let first := lat * (longitudeBands + 1) + lon
        let second := first + longitudeBands + 1
        [first, second, first + 1, second, second + 1, first + 1])) }

/-- The per-cell vertex and normal of `createCylinder`
(`u = x/radialSegments`, `theta = u*π*2`; zero segments give `0/0`). -/
def cylCell (sinQ cosQ : ℚ → ℚ) (piQ : ℚ)
    (radiusTop radiusBottom height : Option ℚ) (radialSegments y x : Nat) :
    (Option ℚ × Option ℚ × Option ℚ) × (Option ℚ × Option ℚ × Option ℚ) :=
  let halfHeight := optDiv height (some 2)
  let v : Option ℚ := some (y : ℚ)
  let radius := optAdd (optMul v (optSub radiusTop radiusBottom)) radiusBottom
  let yPos := optSub (optMul v height) halfHeight
  let u := optDiv (some (x : ℚ)) (some (radialSegments : ℚ))
  let theta := optMul (optMul u (some piQ)) (some 2)
  let sinTheta := theta.map sinQ
  let cosTheta := theta.map cosQ
  ((optMul radius cosTheta, yPos, optMul radius sinTheta), (cosTheta, some 0, sinTheta))

/-- `createCylinder`: two rings of `radialSegments+1` vertices, side
faces only. -/
def createCylinder (sinQ cosQ : ℚ → ℚ) (piQ : ℚ)
    (radiusTop radiusBottom height : Option ℚ) (radialSegments : Nat) : MeshData :=
  let cells := (List.range 2).flatMap (fun y =>
    (List.range (radialSegments + 1)).map (fun x =>
      cylCell sinQ cosQ piQ radiusTop radiusBottom height radialSegments y x))
  { vertices := cells.flatMap (fun c => [c.1.1, c.1.2.1, c.1.2.2])
    normals := cells.flatMap (fun c => [c.2.1, c.2.2.1, c.2.2.2])
    indices := (List.range 1).flatMap (fun y =>
      (List.range radialSegments).flatMap (fun x =>
        let a := y * (radialSegments + 1) + x
        let b := a + radialSegments + 1
        [a, b, a + 1, b, b + 1, a + 1])) }

/-- The per-cell vertex position of `createPlane`
(`x = ix*width/widthSegments - halfWidth`; zero segments give `0/0`). -/
def planeCell (width height : Option ℚ) (widthSegments heightSegments iy ix : Nat) :
    Option ℚ × Option ℚ :=
  let halfWidth := optDiv width (some 2)
  let halfHeight := optDiv height (some 2)
  let y := optSub (optDiv (optMul (some (iy : ℚ)) height) (some (heightSegments : ℚ))) halfHeight
  let x := optSub (optDiv (optMul (some (ix : ℚ)) width) (some (widthSegments : ℚ))) halfWidth
  (x, y)

/-- `createPlane`: an XY grid with uniform normal `(0,0,1)`. -/
def createPlane (width height : Option ℚ) (widthSegments heightSegments : Nat) : MeshData :=
  let cells := (List.range (heightSegments + 1)).flatMap (fun iy =>
    (List.range (widthSegments + 1)).map (fun ix =>
      planeCell width height widthSegments heightSegments iy ix))
  { vertices := cells.flatMap (fun c => [c.1, c.2, some 0])
    normals := cells.flatMap (fun _ => [some 0, some 0, some 1])
    indices := (List.range heightSegments).flatMap (fun iy =>
      (List.range widthSegments).flatMap (fun ix =>
        let a := iy * (widthSegments + 1) + ix
        let b := a + 1
        let c := a + widthSegments + 1
        let d := c + 1
        [a, c, b, b, c, d])) }

/-! ## Polygon-mesh (OBJ) parse -/

/-- The composite dedup key of one face-vertex token: (position index,
texcoord index, normal index), each 0-based; `some (-1)` is the absent
slot sentinel, `none` a non-numeric (`NaN`) slot.  The source keys its
map by the string `posIndex + "/" + texIndex + "/" + normIndex`, which
the triple determines injectively. -/
abbrev ObjKey := Option Int × Option Int × Option Int

/-- Decode one face-vertex token `a/b/c`: 1-based indices shifted to
0-based; an absent or empty (JS-falsy) tex/normal slot becomes `-1`. -/
def keyOfToken (tok : JSStr) : ObjKey :=
  let vd := splitChar '/' tok
  let posIndex := (parseIntJS (vd.getD 0 [])).map (fun i => i - 1)
  let texIndex :=
    let s := vd.getD 1 []
    if s = [] then some (-1 : Int) else (parseIntJS s).map (fun i => i - 1)
  let normIndex :=
    let s := vd.getD 2 []
    if s = [] then some (-1 : Int) else (parseIntJS s).map (fun i => i - 1)
  (posIndex, texIndex, normIndex)

/-- JS `arr[i]` for a possibly negative or `NaN` numeric index: any
miss reads `undefined`, a non-finite value (`none`). -/
def jsArrGet (l : List (Option ℚ)) (i : Option Int) : Option ℚ :=
  match i with
  | none => none
  | some k => if k < 0 then none else l.getD k.toNat none

/-- The mutable locals of `parseOBJ`'s loop. -/
structure ObjState where
  positions : List (Option ℚ)
  normals : List (Option ℚ)
  texCoords : List (Option ℚ)
  vertices : List (Option ℚ)
  vertexNormals : List (Option ℚ)
  indices : List Nat
  vertexMap : List (ObjKey × Nat)
  currentIndex : Nat
deriving DecidableEq

/-- The empty initial state of `parseOBJ`. -/
def initObjState : ObjState := ⟨[], [], [], [], [], [], [], 0⟩

/-- Process one face-vertex token: reuse the mapped output index for an
already seen key, otherwise append a new vertex (position components
read through the possibly out-of-range index; normal components read
when `normIndex >= 0 && normals.length > 0`, else the default
`(0, 0, 1)`).  The JS `Map.set` appends the key; the embedding prepends
it, which `lookup` cannot distinguish as keys stay distinct. -/
def faceVertexStep (st : ObjState) (tok : JSStr) : ObjState × Nat :=
  let key := keyOfToken tok
  match st.vertexMap.lookup key with
  | some idx => (st, idx)
  | none =>
    let idx := st.currentIndex
    let posIndex := key.1
    let normIndex := key.2.2
    let newVerts :=
      [jsArrGet st.positions (posIndex.map (fun i => i * 3)),
       jsArrGet st.positions (posIndex.map (fun i => i * 3 + 1)),
       jsArrGet st.positions (posIndex.map (fun i => i * 3 + 2))]
    let normOk : Bool :=
      (match normIndex with
       | some k => decide (0 ≤ k)
       | none => false) && !st.normals.isEmpty
    let newNorms :=
      if normOk then
        [jsArrGet st.normals (normIndex.map (fun i => i * 3)),
         jsArrGet st.normals (normIndex.map (fun i => i * 3 + 1)),
         jsArrGet st.normals (normIndex.map (fun i => i * 3 + 2))]
      else [some 0, some 0, some 1]
    ({ st with
        vertexMap := (key, idx) :: st.vertexMap
        currentIndex := idx + 1
        vertices := st.vertices ++ newVerts
        vertexNormals := st.vertexNormals ++ newNorms }, idx)

/-- The token loop of a face record: threads the state and collects the
face's output vertex indices in order. -/
def processFaceTokens (st : ObjState) (toks : List JSStr) : ObjState × List Nat :=
  toks.foldl
    (fun acc tok =>
      let r := faceVertexStep acc.1 tok
      (r.1, acc.2 ++ [r.2]))
    (st, [])

/-- The triangulation branch of `parseOBJ`: 3 vertices emit one
triangle, 4 a diagonal split, more than 4 a fan from vertex 0. -/
def triangulate (faceVertices : List Nat) : List Nat :=
  if faceVertices.length = 3 then
    [faceVertices.getD 0 0, faceVertices.getD 1 0, faceVertices.getD 2 0]
  else if faceVertices.length = 4 then
    [faceVertices.getD 0 0, faceVertices.getD 1 0, faceVertices.getD 2 0,
     faceVertices.getD 0 0, faceVertices.getD 2 0, faceVertices.getD 3 0]
  else if 4 < faceVertices.length then
    (List.range (faceVertices.length - 2)).flatMap (fun k =>
      [faceVertices.getD 0 0, faceVertices.getD (k + 1) 0, faceVertices.getD (k + 2) 0])
  else []

/-- Process one line of the OBJ text (the body of `parseOBJ`'s loop):
skip blanks and comments, dispatch on the record type token. -/
def objLine (st : ObjState) (line : JSStr) : ObjState :=
  let l := jsTrim line
  if l = [] ∨ List.isPrefixOf (str "#") l then st
  else
    let parts := jsSplitWs l
    let ty := parts.getD 0 []
    if ty = str "v" then
      { st with positions := st.positions ++
          [parseFloatJS (parts.getD 1 []), parseFloatJS (parts.getD 2 []),
           parseFloatJS (parts.getD 3 [])] }
    else if ty = str "vn" then
      { st with normals := st.normals ++
          [parseFloatJS (parts.getD 1 []), parseFloatJS (parts.getD 2 []),
           parseFloatJS (parts.getD 3 [])] }
    else if ty = str "vt" then
      { st with texCoords := st.texCoords ++
          [parseFloatJS (parts.getD 1 []), parseFloatJS (parts.getD 2 [])] }
    else if ty = str "f" then
      let r := processFaceTokens st (parts.drop 1)
      { r.1 with indices := r.1.indices ++ triangulate r.2 }
    else st

/-- `arr[idx] += v` of the accumulation loop of `calculateNormals`. -/
def accumAt (acc : List (Option ℚ)) (idx : Nat) (v : Option ℚ) : List (Option ℚ) :=
  acc.set idx (optAdd (acc.getD idx none) v)

/-- One triangle of `calculateNormals`: the cross product of the two
edges, accumulated at the triangle's three vertices. -/
def accumTriangle (vertices : List (Option ℚ)) (acc : List (Option ℚ))
    (i0 i1 i2 : Nat) : List (Option ℚ) :=
  let v0x := vertices.getD (i0 * 3) none
  let v0y := vertices.getD (i0 * 3 + 1) none
  let v0z := vertices.getD (i0 * 3 + 2) none
  let v1x := vertices.getD (i1 * 3) none
  let v1y := vertices.getD (i1 * 3 + 1) none
  let v1z := vertices.getD (i1 * 3 + 2) none
  let v2x := vertices.getD (i2 * 3) none
  let v2y := vertices.getD (i2 * 3 + 1) none
  let v2z := vertices.getD (i2 * 3 + 2) none
  let e1x := optSub v1x v0x
  let e1y := optSub v1y v0y
  let e1z := optSub v1z v0z
  let e2x := optSub v2x v0x
  let e2y := optSub v2y v0y
  let e2z := optSub v2z v0z
  let nx := optSub (optMul e1y e2z) (optMul e1z e2y)
  let ny := optSub (optMul e1z e2x) (optMul e1x e2z)
  let nz := optSub (optMul e1x e2y) (optMul e1y e2x)
  let acc0 := accumAt (accumAt (accumAt acc (i0 * 3) nx) (i0 * 3 + 1) ny) (i0 * 3 + 2) nz
  let acc1 := accumAt (accumAt (accumAt acc0 (i1 * 3) nx) (i1 * 3 + 1) ny) (i1 * 3 + 2) nz
  accumAt (accumAt (accumAt acc1 (i2 * 3) nx) (i2 * 3 + 1) ny) (i2 * 3 + 2) nz

/-- The triangle loop of `calculateNormals` over the index triples
(indices are emitted three at a time, so no partial triple occurs at
the call site). -/
def accumTriangles (vertices : List (Option ℚ)) (acc : List (Option ℚ)) :
    List Nat → List (Option ℚ)
  | i0 :: i1 :: i2 :: rest =>
    accumTriangles vertices (accumTriangle vertices acc i0 i1 i2) rest
  | _ => acc

/-- Split a flat scalar list into its triples. -/
def chunks3 {α : Type} : List α → List (α × α × α)
  | a :: b :: c :: rest => (a, b, c) :: chunks3 rest
  | _ => []

/-- `calculateNormals`: zero-initialize one accumulator per scalar,
accumulate per-triangle cross products at the referenced vertices, then
normalize each vertex triple, leaving a zero-length (or `NaN`)
accumulation untouched. -/
def calculateNormals (sqrtQ : ℚ → ℚ) (vertices : List (Option ℚ))
    (indices : List Nat) : List (Option ℚ) :=
  let init : List (Option ℚ) := List.replicate vertices.length (some 0)
  let acc := accumTriangles vertices init indices
  (chunks3 acc).flatMap (fun t =>
    let s := optAdd (optAdd (optMul t.1 t.1) (optMul t.2.1 t.2.1)) (optMul t.2.2 t.2.2)
    let len := s.map sqrtQ
    let pos : Bool := match len with | some q => decide (0 < q) | none => false
    if pos then [optDiv t.1 len, optDiv t.2.1 len, optDiv t.2.2 len]
    else [t.1, t.2.1, t.2.2])

/-- `parseOBJ`: fold the line processor over the split text, then fall
back to `calculateNormals` when no vertex normal entry was emitted. -/
def parseOBJ (sqrtQ : ℚ → ℚ) (text : JSStr) : MeshData :=
  let st := (splitLines text).foldl objLine initObjState
  let vertexNormals :=
    if st.vertexNormals = [] then calculateNormals sqrtQ st.vertices st.indices
    else st.vertexNormals
  { vertices := st.vertices, normals := vertexNormals, indices := st.indices }

/-! ## Merged protein geometry -/

/-- One atom's sphere request (`createBallAndStick` output shape). -/
structure AtomGeom where
  posX : Option ℚ
  posY : Option ℚ
  posZ : Option ℚ
  radius : Option ℚ
  colR : ℚ
  colG : ℚ
  colB : ℚ
  element : JSStr

/-- One bond's cylinder request (`start`/`end` spelled out). -/
structure BondGeom where
  startX : Option ℚ
  startY : Option ℚ
  startZ : Option ℚ
  endX : Option ℚ
  endY : Option ℚ
  endZ : Option ℚ
  radius : Option ℚ
  colR : ℚ
  colG : ℚ
  colB : ℚ

/-- The input record of `generateProteinGeometry`. -/
structure BallAndStick where
  atomGeometries : List AtomGeom
  bondGeometries : List BondGeom

/-- The merged output buffers (`vertices`, `normals`, `colors`,
`indices`). -/
structure GeoBuffers where
  vertices : List (Option ℚ)
  normals : List (Option ℚ)
  colors : List ℚ
  indices : List Nat

/-- The running accumulator of `generateProteinGeometry`. -/
structure GeoAcc where
  vertices : List (Option ℚ)
  normals : List (Option ℚ)
  colors : List ℚ
  indices : List Nat
  currentIndex : Nat

/-- Append one submesh: vertices translated by `(tx, ty, tz)`, normals
copied positionally, the single color broadcast per vertex, indices
offset by the running vertex count (`currentIndex += len/3`).  The
source walks scalars three at a time; every generator used emits a
multiple of three scalars. -/
def addSubmesh (acc : GeoAcc) (mesh : MeshData) (tx ty tz : Option ℚ)
    (cR cG cB : ℚ) : GeoAcc :=
  let triples := chunks3 mesh.vertices
  { vertices := acc.vertices ++ triples.flatMap (fun t =>
      [optAdd t.1 tx, optAdd t.2.1 ty, optAdd t.2.2 tz])
    normals := acc.normals ++ (List.range triples.length).flatMap (fun k =>
      [mesh.normals.getD (3 * k) none, mesh.normals.getD (3 * k + 1) none,
       mesh.normals.getD (3 * k + 2) none])
    colors := acc.colors ++ triples.flatMap (fun _ => [cR, cG, cB])
    indices := acc.indices ++ mesh.indices.map (fun i => i + acc.currentIndex)
    currentIndex := acc.currentIndex + mesh.vertices.length / 3 }

/-- `generateProteinGeometry`: one sphere submesh per atom at its
position, one cylinder submesh per bond translated to the bond midpoint
(no axis alignment, per the source), all sharing one index space. -/
def generateProteinGeometry (sqrtQ : ℚ → ℚ)
    (sphereGenerator : Option ℚ → Nat → Nat → MeshData)
    (cylinderGenerator : Option ℚ → Option ℚ → Option ℚ → Nat → MeshData)
    (ballAndStick : BallAndStick) : GeoBuffers :=
  let acc0 : GeoAcc := ⟨[], [], [], [], 0⟩
  let acc1 := ballAndStick.atomGeometries.foldl
    (fun acc a =>
      addSubmesh acc (sphereGenerator a.radius 10 10) a.posX a.posY a.posZ
        a.colR a.colG a.colB)
    acc0
  let acc2 := ballAndStick.bondGeometries.foldl
    (fun acc b =>
      let dx := optSub b.endX b.startX
      let dy := optSub b.endY b.startY
      let dz := optSub b.endZ b.startZ
      let len := (optAdd (optAdd (optMul dx dx) (optMul dy dy)) (optMul dz dz)).map sqrtQ
      let midX := optDiv (optAdd b.startX b.endX) (some 2)
      let midY := optDiv (optAdd b.startY b.endY) (some 2)
      let midZ := optDiv (optAdd b.startZ b.endZ) (some 2)
      addSubmesh acc (cylinderGenerator b.radius b.radius len 8) midX midY midZ
        b.colR b.colG b.colB)
    acc1
  { vertices := acc2.vertices, normals := acc2.normals,
    colors := acc2.colors, indices := acc2.indices }

/-! ## Basic lemmas about the JS-number helpers -/

@[simp] lemma optAdd_none_left (a : Option ℚ) : optAdd none a = none := by cases a <;> rfl

@[simp] lemma optAdd_none_right (a : Option ℚ) : optAdd a none = none := by cases a <;> rfl

@[simp] lemma optAdd_some_some (a b : ℚ) : optAdd (some a) (some b) = some (a + b) := rfl

@[simp] lemma optSub_none_left (a : Option ℚ) : optSub none a = none := by cases a <;> rfl

@[simp] lemma optSub_none_right (a : Option ℚ) : optSub a none = none := by cases a <;> rfl

@[simp] lemma optSub_some_some (a b : ℚ) : optSub (some a) (some b) = some (a - b) := rfl

@[simp] lemma optMul_none_left (a : Option ℚ) : optMul none a = none := by cases a <;> rfl

@[simp] lemma optMul_none_right (a : Option ℚ) : optMul a none = none := by cases a <;> rfl

@[simp] lemma optMul_some_some (a b : ℚ) : optMul (some a) (some b) = some (a * b) := rfl

@[simp] lemma optDiv_none_left (a : Option ℚ) : optDiv none a = none := by cases a <;> rfl

@[simp] lemma optDiv_none_right (a : Option ℚ) : optDiv a none = none := by cases a <;> rfl

@[simp] lemma optDiv_some_some (a b : ℚ) :
    optDiv (some a) (some b) = if b = 0 then none else some (a / b) := rfl

/-- The comparison `Math.sqrt s < t` is decided by `sqrtLt`. -/
lemma sqrtLt_iff_real (q t : ℚ) :
    sqrtLt (some q) t = true ↔ Real.sqrt (q : ℝ) < (t : ℝ) := by
  simp only [sqrtLt, decide_eq_true_eq]
  constructor
  · rintro ⟨ht, hlt⟩
    have ht' : (0 : ℝ) < (t : ℝ) := by exact_mod_cast ht
    rw [Real.sqrt_lt' ht']
    have : (q : ℝ) < (t : ℝ) * (t : ℝ) := by exact_mod_cast hlt
    nlinarith
  · intro h
    have h0 : (0 : ℝ) ≤ Real.sqrt (q : ℝ) := Real.sqrt_nonneg _
    have ht' : (0 : ℝ) < (t : ℝ) := lt_of_le_of_lt h0 h
    have ht : 0 < t := by exact_mod_cast ht'
    refine ⟨ht, ?_⟩
    rw [Real.sqrt_lt' ht'] at h
    have : (q : ℝ) < (t : ℝ) * (t : ℝ) := by nlinarith
    exact_mod_cast this

/-- A JS square `x * x` is nonnegative when finite. -/
lemma optMul_self_nonneg (x : Option ℚ) (s : ℚ) (h : optMul x x = some s) : 0 ≤ s := by
  cases x with
  | none => simp at h
  | some a =>
    simp only [optMul_some_some, Option.some.injEq] at h
    rw [← h]
    exact mul_self_nonneg a

/-- A JS sum of nonnegative finite values is nonnegative when finite. -/
lemma optAdd_nonneg (x y : Option ℚ) (s : ℚ)
    (hx : ∀ u, x = some u → 0 ≤ u) (hy : ∀ u, y = some u → 0 ≤ u)
    (h : optAdd x y = some s) : 0 ≤ s := by
  cases x with
  | none => simp at h
  | some a =>
    cases y with
    | none => simp at h
    | some b =>
      simp only [optAdd_some_some, Option.some.injEq] at h
      rw [← h]
      exact add_nonneg (hx a rfl) (hy b rfl)

/-- A computed squared distance is nonnegative. -/
lemma optDistSq_nonneg (a b : Atom) (s : ℚ) (h : optDistSq a b = some s) : 0 ≤ s := by
  unfold optDistSq at h
  refine optAdd_nonneg _ _ _ (fun u hu => optAdd_nonneg _ _ _ ?_ ?_ hu)
    (fun u hu => optMul_self_nonneg _ _ hu) h
  · exact fun v hv => optMul_self_nonneg _ _ hv
  · exact fun v hv => optMul_self_nonneg _ _ hv

/-- Concrete stand-in for a `Math` oracle in closed instances. -/
def dummyQ : ℚ → ℚ := fun _ => 0

@[simp] lemma length_chunks3 {α : Type} : ∀ l : List α, (chunks3 l).length = l.length / 3
  | [] => by simp [chunks3]
  | [a] => by simp [chunks3]
  | [a, b] => by simp [chunks3]
  | a :: b :: c :: rest => by
    simp only [chunks3, List.length_cons, length_chunks3 rest]
    omega

/-- Length of a rectangular grid flattening. -/
lemma grid_length {α : Type} (m n : Nat) (f : Nat → Nat → α) :
    ((List.range m).flatMap (fun i => (List.range n).map (f i))).length = m * n := by
  induction m with
  | zero => simp
  | succ k ih =>
    rw [List.range_succ, List.flatMap_append]
    simp only [List.length_append, ih, List.flatMap_cons, List.flatMap_nil,
      List.append_nil, List.length_map, List.length_range]
    ring

/-- Length of a grid flattened through three scalars per cell. -/
lemma length_tripleFlat {α β : Type} (cells : List α) (f g h : α → β) :
    (cells.flatMap (fun c => [f c, g c, h c])).length = 3 * cells.length := by
  induction cells with
  | nil => rfl
  | cons c rest ih => simp [List.flatMap_cons, ih]; ring

@[simp] lemma optDiv_zero_right (a : Option ℚ) : optDiv a (some 0) = none := by
  cases a <;> simp [optDiv]

/-- With zero latitude bands the first sphere cell's x component is
`0/0`-contaminated. -/
lemma sphereCell_lat0_none (sinQ cosQ : ℚ → ℚ) (piQ : ℚ) (r : Option ℚ) (lonB lon : Nat) :
    (sphereCell sinQ cosQ piQ r 0 lonB 0 lon).1.1 = none := by
  simp [sphereCell]

/-- With zero longitude bands the first sphere cell's x component is
`0/0`-contaminated. -/
lemma sphereCell_lon0_none (sinQ cosQ : ℚ → ℚ) (piQ : ℚ) (r : Option ℚ) (latB lat : Nat) :
    (sphereCell sinQ cosQ piQ r latB 0 lat 0).1.1 = none := by
  simp [sphereCell]

/-- With zero radial segments the first cylinder cell's x component is
`0/0`-contaminated. -/
lemma cylCell_zero_none (sinQ cosQ : ℚ → ℚ) (piQ : ℚ) (rT rB h : Option ℚ) (y : Nat) :
    (cylCell sinQ cosQ piQ rT rB h 0 y 0).1.1 = none := by
  simp [cylCell]

/-- With zero width segments the first plane cell's x component is
`0/0`-contaminated. -/
lemma planeCell_ws0_none (w h : Option ℚ) (hS iy : Nat) :
    (planeCell w h 0 hS iy 0).1 = none := by
  cases w <;> simp [planeCell]

/-- With zero height segments the first plane cell's y component is
`0/0`-contaminated. -/
lemma planeCell_hs0_none (w h : Option ℚ) (wS ix : Nat) :
    (planeCell w h wS 0 0 ix).2 = none := by
  cases h <;> simp [planeCell]

/-- Claim C9 counterexample: `createSphere` with zero latitude bands
returns a buffer containing a non-finite (`NaN`) vertex component, so a
degenerate tessellation argument is neither rejected nor clamped. -/
theorem claim9_counterexample :
    none ∈ (createSphere dummyQ dummyQ 0 (some 1) 0 1).vertices := by
  decide

/-- Claim C9 as amended: a degenerate (zero) tessellation argument is
neither rejected nor clamped to 1; the factory still returns a buffer of
the undiminished grid size, but the `0/0` band step makes `NaN`
(`none`) vertex components appear. -/
theorem claim9_amended :
    (∀ (sinQ cosQ : ℚ → ℚ) (piQ : ℚ) (r : Option ℚ) (lonB : Nat),
       (createSphere sinQ cosQ piQ r 0 lonB).vertices.length = 3 * ((0 + 1) * (lonB + 1))
       ∧ none ∈ (createSphere sinQ cosQ piQ r 0 lonB).vertices)
    ∧ (∀ (sinQ cosQ : ℚ → ℚ) (piQ : ℚ) (r : Option ℚ) (latB : Nat),
       (createSphere sinQ cosQ piQ r latB 0).vertices.length = 3 * ((latB + 1) * 1)
       ∧ none ∈ (createSphere sinQ cosQ piQ r latB 0).vertices)
    ∧ (∀ (sinQ cosQ : ℚ → ℚ) (piQ : ℚ) (rT rB h : Option ℚ),
       (createCylinder sinQ cosQ piQ rT rB h 0).vertices.length = 3 * (2 * 1)
       ∧ none ∈ (createCylinder sinQ cosQ piQ rT rB h 0).vertices)
    ∧ (∀ (w h : Option ℚ) (hS : Nat),
       (createPlane w h 0 hS).vertices.length = 3 * ((hS + 1) * 1)
       ∧ none ∈ (createPlane w h 0 hS).vertices)
    ∧ (∀ (w h : Option ℚ) (wS : Nat),
       (createPlane w h wS 0).vertices.length = 3 * (1 * (wS + 1))
       ∧ none ∈ (createPlane w h wS 0).vertices) := by
  refine ⟨fun sinQ cosQ piQ r lonB => ⟨?_, ?_⟩,
          fun sinQ cosQ piQ r latB => ⟨?_, ?_⟩,
          fun sinQ cosQ piQ rT rB h => ⟨?_, ?_⟩,
          fun w h hS => ⟨?_, ?_⟩,
          fun w h wS => ⟨?_, ?_⟩⟩
  · rw [createSphere, length_tripleFlat, grid_length]
  · refine List.mem_flatMap.2 ⟨sphereCell sinQ cosQ piQ r 0 lonB 0 0, ?_, ?_⟩
    · exact List.mem_flatMap.2 ⟨0, by simp, List.mem_map.2 ⟨0, by simp, rfl⟩⟩
    · rw [sphereCell_lat0_none]; simp
  · rw [createSphere, length_tripleFlat, grid_length]
  · refine List.mem_flatMap.2 ⟨sphereCell sinQ cosQ piQ r latB 0 0 0, ?_, ?_⟩
    · exact List.mem_flatMap.2 ⟨0, by simp, List.mem_map.2 ⟨0, by simp, rfl⟩⟩
    · rw [sphereCell_lon0_none]; simp
  · rw [createCylinder, length_tripleFlat, grid_length]
  · refine List.mem_flatMap.2 ⟨cylCell sinQ cosQ piQ rT rB h 0 0 0, ?_, ?_⟩
    · exact List.mem_flatMap.2 ⟨0, by simp, List.mem_map.2 ⟨0, by simp, rfl⟩⟩
    · rw [cylCell_zero_none]; simp
  · rw [createPlane, length_tripleFlat, grid_length]
  · refine List.mem_flatMap.2 ⟨planeCell w h 0 hS 0 0, ?_, ?_⟩
    · exact List.mem_flatMap.2 ⟨0, by simp, List.mem_map.2 ⟨0, by simp, rfl⟩⟩
    · rw [planeCell_ws0_none]; simp
  · rw [createPlane, length_tripleFlat, grid_length]
  · refine List.mem_flatMap.2 ⟨planeCell w h wS 0 0 0, ?_, ?_⟩
    · exact List.mem_flatMap.2 ⟨0, by simp, List.mem_map.2 ⟨0, by simp, rfl⟩⟩
    · rw [planeCell_hs0_none]; simp

/-- Evaluation of the one-digit float tokens used in concrete inputs. -/
lemma parseFloatJS_zero : parseFloatJS (str "0") = some 0 := by
  simp +decide [parseFloatJS, str, leadDigits, digitsVal]

/-- Evaluation of the one-digit float tokens used in concrete inputs. -/
lemma parseFloatJS_one : parseFloatJS (str "1") = some 1 := by
  simp +decide [parseFloatJS, str, leadDigits, digitsVal]

/-- Claim C3 (code bug): on a mesh with faces but no `vn` record the
declared fallback never runs.  Every face vertex already pushed the
default normal `(0,0,1)`, so the guard `vertexNormals.length === 0` of
the fallback can only hold when no face vertex exists at all.  For the
triangle in the x = 0 plane below, the output normals are the defaults
`(0,0,1)`, while the fallback's own accumulation stage (last conjunct)
computes the cross-product direction `(1,0,0)` from the same vertices
and indices - the direction of the unit normal the fallback would have
produced. -/
theorem claim3_code_bug : ∀ sqrtQ : ℚ → ℚ,
    (parseOBJ sqrtQ (str "v 0 0 0\nv 0 1 0\nv 0 0 1\nf 1 2 3")).normals =
      [some 0, some 0, some 1, some 0, some 0, some 1, some 0, some 0, some 1]
    ∧ (parseOBJ sqrtQ (str "v 0 0 0\nv 0 1 0\nv 0 0 1\nf 1 2 3")).vertices =
      [some 0, some 0, some 0, some 0, some 1, some 0, some 0, some 0, some 1]
    ∧ (parseOBJ sqrtQ (str "v 0 0 0\nv 0 1 0\nv 0 0 1\nf 1 2 3")).indices = [0, 1, 2]
    ∧ accumTriangles
        [some 0, some 0, some 0, some 0, some 1, some 0, some 0, some 0, some 1]
        (List.replicate 9 (some 0)) [0, 1, 2] =
        [some 1, some 0, some 0, some 1, some 0, some 0, some 1, some 0, some 0] := by
  intro sqrtQ
  refine ⟨by rfl, ?_, by rfl, ?_⟩
  · have h : (parseOBJ sqrtQ (str "v 0 0 0\nv 0 1 0\nv 0 0 1\nf 1 2 3")).vertices =
        [parseFloatJS (str "0"), parseFloatJS (str "0"), parseFloatJS (str "0"),
         parseFloatJS (str "0"), parseFloatJS (str "1"), parseFloatJS (str "0"),
         parseFloatJS (str "0"), parseFloatJS (str "0"), parseFloatJS (str "1")] := by rfl
    rw [h, parseFloatJS_zero, parseFloatJS_one]
  · norm_num [accumTriangles, accumTriangle, accumAt, List.getD, List.set, List.replicate]

/-- Claim C8 counterexample: a face referencing positions that were
never declared (indices 1, 2, 3 with an empty position list) does not
abort the parse: `parseOBJ` returns a completed buffer whose vertex
components are all `undefined` (`none`), with the face triangulated as
if the references were valid. -/
theorem claim8_counterexample :
    (parseOBJ dummyQ (str "f 1 2 3")).vertices = List.replicate 9 none
    ∧ (parseOBJ dummyQ (str "f 1 2 3")).indices = [0, 1, 2]
    ∧ (parseOBJ dummyQ (str "f 1 2 3")).normals =
        [some 0, some 0, some 1, some 0, some 0, some 1, some 0, some 0, some 1] := by
  exact ⟨by decide, by decide, by decide⟩

/-- Claim-side predicate: the face-vertex position reference cannot hit
the position array - it is `NaN`, negative (including the 0 file index,
which decodes to `-1`), or at least the array length. -/
def posRefOutOfRange (positions : List (Option ℚ)) (k : Option Int) : Bool :=
  match k with
  | none => true
  | some p => decide (p < 0) || decide (positions.length ≤ p.toNat * 3)

/-- An out-of-range position reference reads `undefined` (`none`). -/
lemma jsArrGet_mul3_oob (l : List (Option ℚ)) (k : Option Int) (off : Int)
    (h0 : 0 ≤ off) (h2 : off ≤ 2) (hoob : posRefOutOfRange l k = true) :
    jsArrGet l (k.map (fun i => i * 3 + off)) = none := by
  rcases k with _ | p
  · rfl
  · simp only [posRefOutOfRange, Bool.or_eq_true, decide_eq_true_eq] at hoob
    simp only [Option.map_some', jsArrGet]
    rcases hoob with hneg | hbig
    · rw [if_pos (by omega)]
    · by_cases hsign : p * 3 + off < 0
      · rw [if_pos hsign]
      · rw [if_neg hsign]
        exact List.getD_eq_default _ _ (by omega)

/-- Claim C8 as amended: `parseOBJ` performs no reference validation.
A face-vertex token whose position index is zero, negative, `NaN`, or
beyond the declared positions still allocates an output vertex: the
three position reads come back `undefined` (`none`), the token receives
the next output index, and parsing continues - no failure is raised. -/
theorem claim8_amended (st : ObjState) (tok : JSStr)
    (hnew : st.vertexMap.lookup (keyOfToken tok) = none)
    (hoob : posRefOutOfRange st.positions (keyOfToken tok).1 = true) :
    (faceVertexStep st tok).1.vertices = st.vertices ++ [none, none, none]
    ∧ (faceVertexStep st tok).2 = st.currentIndex
    ∧ (faceVertexStep st tok).1.currentIndex = st.currentIndex + 1
    ∧ (faceVertexStep st tok).1.indices = st.indices := by
  have h0 : jsArrGet st.positions ((keyOfToken tok).1.map (fun i => i * 3)) = none := by
    have h := jsArrGet_mul3_oob st.positions _ 0 (by norm_num) (by norm_num) hoob
    simpa using h
  have h1 := jsArrGet_mul3_oob st.positions _ 1 (by norm_num) (by norm_num) hoob
  have h2 := jsArrGet_mul3_oob st.positions _ 2 (by norm_num) (by norm_num) hoob
  simp [faceVertexStep, hnew, h0, h1, h2]

/-- Closed witness for claim C8's amended theorem: the zero file index
(token `0`) in the empty initial state. -/
theorem claim8_witness :
    initObjState.vertexMap.lookup (keyOfToken (str "0")) = none
    ∧ posRefOutOfRange initObjState.positions (keyOfToken (str "0")).1 = true
    ∧ (faceVertexStep initObjState (str "0")).1.vertices = initObjState.vertices ++ [none, none, none]
    ∧ (faceVertexStep initObjState (str "0")).2 = initObjState.currentIndex
    ∧ (faceVertexStep initObjState (str "0")).1.currentIndex = initObjState.currentIndex + 1
    ∧ (faceVertexStep initObjState (str "0")).1.indices = initObjState.indices := by
  refine ⟨by decide, by decide, ?_⟩
  have h := claim8_amended initObjState (str "0") (by decide) (by decide)
  exact ⟨h.1, h.2.1, h.2.2.1, h.2.2.2⟩

/-- Centering changes only coordinates: the serial column survives. -/
lemma centerMolecule_serial (atoms : List Atom) :
    (centerMolecule atoms).map (fun a => a.serial) = atoms.map (fun a => a.serial) := by
  unfold centerMolecule
  by_cases h : atoms = []
  · simp [h]
  · rw [if_neg h, List.map_map]
    rfl

/-- Centering keeps the atom count. -/
lemma centerMolecule_length (atoms : List Atom) :
    (centerMolecule atoms).length = atoms.length := by
  unfold centerMolecule
  by_cases h : atoms = []
  · simp [h]
  · rw [if_neg h, List.length_map]

/-- Claim C2 counterexample: a record whose serial column holds the
non-numeric text `abcde` does not abort `parsePDB`.  The parse returns
normally and the malformed record is included in the atom list, its
serial being `NaN` (`none`). -/
theorem claim2_counterexample :
    (parsePDB (str "ATOM  abcde  CA  ALA A   1       0.000   0.000   0.000")).atoms.length = 1
    ∧ ((parsePDB (str "ATOM  abcde  CA  ALA A   1       0.000   0.000   0.000")).atoms.getD 0
        default).serial = none
    ∧ ((parsePDB (str "ATOM  abcde  CA  ALA A   1       0.000   0.000   0.000")).atoms.getD 0
        default).name = str "CA" := by
  exact ⟨by decide, by decide, by decide⟩

/-- Claim C2 as amended: `parsePDB` has no failure mode for malformed
numeric columns.  Every `ATOM`/`HETATM` line contributes exactly one
atom record - none is skipped, none aborts the parse - and each
record's serial field is exactly the (possibly `NaN`) `parseInt` of its
fixed serial column. -/
theorem claim2_amended (text : JSStr) :
    (parsePDB text).atoms.map (fun a => a.serial) =
      ((splitLines text).filter (fun l => isAtomRecord l)).map
        (fun l => parseIntJS (jsTrim (jsSubstring l 6 11)))
    ∧ (parsePDB text).atoms.length =
      ((splitLines text).filter (fun l => isAtomRecord l)).length := by
  constructor
  · simp only [parsePDB, centerMolecule_serial, List.map_map]
    rfl
  · simp only [parsePDB, centerMolecule_length, List.length_map]

/-- Closed witness for claim C2's amended theorem at the malformed
serial input. -/
theorem claim2_witness :
    (parsePDB (str "ATOM  abcde  CA  ALA A   1       0.000   0.000   0.000")).atoms.map
        (fun a => a.serial) =
      ((splitLines (str "ATOM  abcde  CA  ALA A   1       0.000   0.000   0.000")).filter
          (fun l => isAtomRecord l)).map
        (fun l => parseIntJS (jsTrim (jsSubstring l 6 11))) :=
  (claim2_amended (str "ATOM  abcde  CA  ALA A   1       0.000   0.000   0.000")).1

/-- An in-range default read is a member. -/
lemma getD_mem_of_lt {α : Type} (l : List α) (n : Nat) (d : α) (h : n < l.length) :
    l.getD n d ∈ l := by
  rw [List.getD_eq_getElem?_getD, List.getElem?_eq_getElem h]
  exact List.getElem_mem h

/-- One face-vertex step never touches the emitted index list. -/
lemma faceVertexStep_indices (st : ObjState) (tok : JSStr) :
    (faceVertexStep st tok).1.indices = st.indices := by
  cases hl : List.lookup (keyOfToken tok) st.vertexMap <;> simp [faceVertexStep, hl]

/-- The face token loop never touches the emitted index list, and
collects exactly one output vertex index per token. -/
lemma processFaceTokens_aux (toks : List JSStr) :
    ∀ (st : ObjState) (acc : List Nat),
      (toks.foldl
        (fun acc tok =>
          let r := faceVertexStep acc.1 tok
          (r.1, acc.2 ++ [r.2])) (st, acc)).1.indices = st.indices
      ∧ (toks.foldl
        (fun acc tok =>
          let r := faceVertexStep acc.1 tok
          (r.1, acc.2 ++ [r.2])) (st, acc)).2.length = acc.length + toks.length := by
  induction toks with
  | nil => intro st acc; exact ⟨rfl, by simp⟩
  | cons tok rest ih =>
    intro st acc
    simp only [List.foldl_cons]
    refine ⟨?_, ?_⟩
    · rw [(ih _ _).1, faceVertexStep_indices]
    · rw [(ih _ _).2]
      simp only [List.length_append, List.length_cons, List.length_nil]
      omega

/-- Index-list preservation, packaged for `processFaceTokens`. -/
lemma processFaceTokens_indices (st : ObjState) (toks : List JSStr) :
    (processFaceTokens st toks).1.indices = st.indices :=
  (processFaceTokens_aux toks st []).1

/-- One collected output index per face token. -/
lemma processFaceTokens_length (st : ObjState) (toks : List JSStr) :
    (processFaceTokens st toks).2.length = toks.length := by
  have h := (processFaceTokens_aux toks st []).2
  simpa using h

/-- The three triangulation branches agree with the uniform fan from
vertex 0 whenever the face has at least three vertices. -/
lemma triangulate_eq_fan (fv : List Nat) (h : 3 ≤ fv.length) :
    triangulate fv = (List.range (fv.length - 2)).flatMap (fun k =>
      [fv.getD 0 0, fv.getD (k + 1) 0, fv.getD (k + 2) 0]) := by
  unfold triangulate
  by_cases h3 : fv.length = 3
  · rw [if_pos h3, h3]
    simp [List.range_succ]
  · by_cases h4 : fv.length = 4
    · rw [if_neg h3, if_pos h4, h4]
      simp [List.range_succ]
    · have h5 : 4 < fv.length := by omega
      rw [if_neg h3, if_neg h4, if_pos h5]

/-- Claim C6: a face record with `n ≥ 3` vertex tokens makes `parseOBJ`
emit exactly `n - 2` triangles - one for a triangle, the two diagonal
halves `(v0,v1,v2)`, `(v0,v2,v3)` for a quad, and the fan anchored at
the face's first vertex beyond that - all of whose vertex indices are
drawn from the face's own assigned vertex list `fv`. -/
theorem claim6_triangulation (st : ObjState) (line : JSStr)
    (toks : List JSStr) (fv : List Nat)
    (hne : jsTrim line ≠ [])
    (hhash : ¬ List.isPrefixOf (str "#") (jsTrim line))
    (hty : (jsSplitWs (jsTrim line)).getD 0 [] = str "f")
    (htoks : toks = (jsSplitWs (jsTrim line)).drop 1)
    (hfv : fv = (processFaceTokens st toks).2)
    (hn : 3 ≤ toks.length) :
    (objLine st line).indices = st.indices ++ triangulate fv
    ∧ fv.length = toks.length
    ∧ triangulate fv = (List.range (toks.length - 2)).flatMap (fun k =>
        [fv.getD 0 0, fv.getD (k + 1) 0, fv.getD (k + 2) 0])
    ∧ (triangulate fv).length = 3 * (toks.length - 2)
    ∧ ∀ i ∈ triangulate fv, i ∈ fv := by
  have hlen : fv.length = toks.length := by
    rw [hfv, processFaceTokens_length]
  have hfan : triangulate fv = (List.range (toks.length - 2)).flatMap (fun k =>
      [fv.getD 0 0, fv.getD (k + 1) 0, fv.getD (k + 2) 0]) := by
    rw [triangulate_eq_fan fv (by omega), hlen]
  refine ⟨?_, hlen, hfan, ?_, ?_⟩
  · simp only [objLine]
    rw [if_neg (by simp [hne, hhash])]
    rw [hty]
    rw [if_neg (by decide), if_neg (by decide), if_neg (by decide), if_pos rfl]
    rw [← htoks, ← hfv, processFaceTokens_indices]
  · rw [hfan, length_tripleFlat, List.length_range]
  · intro i hi
    rw [hfan] at hi
    rcases List.mem_flatMap.1 hi with ⟨k, hk, hik⟩
    rw [List.mem_range] at hk
    have hflen : 3 ≤ fv.length := by omega
    simp only [List.mem_cons, List.not_mem_nil, or_false] at hik
    rcases hik with h | h | h
    · exact h ▸ getD_mem_of_lt fv 0 0 (by omega)
    · exact h ▸ getD_mem_of_lt fv (k + 1) 0 (by omega)
    · exact h ▸ getD_mem_of_lt fv (k + 2) 0 (by omega)

/-- Closed witness for claim C6 at the five-vertex face
`f 1 2 3 4 5` in the empty initial state. -/
theorem claim6_witness :
    3 ≤ ((jsSplitWs (jsTrim (str "f 1 2 3 4 5"))).drop 1).length
    ∧ (objLine initObjState (str "f 1 2 3 4 5")).indices =
      initObjState.indices ++ triangulate
        (processFaceTokens initObjState
          ((jsSplitWs (jsTrim (str "f 1 2 3 4 5"))).drop 1)).2 :=
  ⟨by decide,
   (claim6_triangulation initObjState (str "f 1 2 3 4 5") _ _
     (by decide) (by decide) (by decide) rfl rfl (by decide)).1⟩

/-! ## The dedup invariant of the OBJ parse -/

/-- A successful lookup key is among the stored keys. -/
lemma lookup_some_mem {β : Type} (k : ObjKey) (v : β) :
    ∀ l : List (ObjKey × β), l.lookup k = some v → k ∈ l.map Prod.fst := by
  intro l
  induction l with
  | nil => intro h; cases h
  | cons kv rest ih =>
    intro h
    rcases kv with ⟨k', v'⟩
    rw [List.lookup_cons] at h
    by_cases hk : k = k'
    · subst hk
      exact List.mem_map_of_mem Prod.fst (List.mem_cons_self _ _)
    · rw [show (k == k') = false from beq_eq_false_iff_ne.2 hk] at h
      simp only [List.map_cons, List.mem_cons]
      exact Or.inr (ih h)

/-- A failed lookup key is absent from the stored keys. -/
lemma lookup_none_not_mem {β : Type} (k : ObjKey) :
    ∀ l : List (ObjKey × β), l.lookup k = none → k ∉ l.map Prod.fst := by
  intro l
  induction l with
  | nil => intro _ h; cases h
  | cons kv rest ih =>
    intro h
    rcases kv with ⟨k', v'⟩
    rw [List.lookup_cons] at h
    by_cases hk : k = k'
    · subst hk
      simp at h
    · rw [show (k == k') = false from beq_eq_false_iff_ne.2 hk] at h
      simp only [List.map_cons, List.mem_cons, not_or]
      exact ⟨hk, ih h⟩

/-- A successful lookup yields a stored pair. -/
lemma lookup_some_mem_pair {β : Type} (k : ObjKey) (v : β) :
    ∀ l : List (ObjKey × β), l.lookup k = some v → (k, v) ∈ l := by
  intro l
  induction l with
  | nil => intro h; cases h
  | cons kv rest ih =>
    intro h
    rcases kv with ⟨k', v'⟩
    rw [List.lookup_cons] at h
    by_cases hk : k = k'
    · subst hk
      simp at h
      rw [h]
      exact List.mem_cons_self _ _
    · rw [show (k == k') = false from beq_eq_false_iff_ne.2 hk] at h
      exact List.mem_cons_of_mem _ (ih h)

/-- The face-vertex keys contributed by one line of OBJ text: the
tokens of a face record, and nothing from any other line. -/
def lineKeys (line : JSStr) : List ObjKey :=
  let l := jsTrim line
  if l = [] ∨ List.isPrefixOf (str "#") l then []
  else
    let parts := jsSplitWs l
    if parts.getD 0 [] = str "f" then (parts.drop 1).map keyOfToken else []

/-- All composite face-vertex keys of an OBJ text, in processing
order. -/
def faceKeys (text : JSStr) : List ObjKey :=
  (splitLines text).flatMap lineKeys

/-- The running invariant of `parseOBJ`'s state: the dedup map's keys
are exactly the distinct face keys seen so far (`ks`), one output
vertex (three scalars, with its three normal scalars) exists per map
entry, and every stored or emitted index is below the vertex count. -/
def ObjInv (st : ObjState) (ks : List ObjKey) : Prop :=
  (st.vertexMap.map Prod.fst).Nodup
  ∧ (∀ k, k ∈ st.vertexMap.map Prod.fst ↔ k ∈ ks)
  ∧ st.vertices.length = 3 * st.currentIndex
  ∧ st.vertexMap.length = st.currentIndex
  ∧ st.vertexNormals.length = st.vertices.length
  ∧ (∀ kv ∈ st.vertexMap, kv.2 < st.currentIndex)
  ∧ (∀ i ∈ st.indices, i < st.currentIndex)

/-- One face-vertex step keeps the invariant, records exactly the new
key, and returns an in-range index without touching emitted indices. -/
lemma faceVertexStep_inv (st : ObjState) (tok : JSStr) (ks : List ObjKey)
    (h : ObjInv st ks) :
    ObjInv (faceVertexStep st tok).1 (ks ++ [keyOfToken tok])
    ∧ (faceVertexStep st tok).2 < (faceVertexStep st tok).1.currentIndex
    ∧ st.currentIndex ≤ (faceVertexStep st tok).1.currentIndex := by
  obtain ⟨hnd, hmem, hvlen, hmlen, hnlen, hmapb, hindb⟩ := h
  cases hl : List.lookup (keyOfToken tok) st.vertexMap with
  | some idx =>
    have hk : keyOfToken tok ∈ st.vertexMap.map Prod.fst := lookup_some_mem _ _ _ hl
    have hres : faceVertexStep st tok = (st, idx) := by
      simp [faceVertexStep, hl]
    rw [hres]
    refine ⟨⟨hnd, ?_, hvlen, hmlen, hnlen, hmapb, hindb⟩, ?_, le_refl _⟩
    · intro k
      rw [hmem k]
      constructor
      · intro hks; exact List.mem_append_left _ hks
      · intro hks
        rcases List.mem_append.1 hks with hks | hks
        · exact hks
        · simp only [List.mem_singleton] at hks
          rw [hks, ← hmem]
          exact hk
    · exact hmapb (keyOfToken tok, idx) (lookup_some_mem_pair _ _ _ hl)
  | none =>
    have hk : keyOfToken tok ∉ st.vertexMap.map Prod.fst := lookup_none_not_mem _ _ hl
    constructor
    · constructor
      · simp only [faceVertexStep, hl]
        simp only [List.map_cons, List.nodup_cons]
        exact ⟨hk, hnd⟩
      refine ⟨?_, ?_, ?_, ?_, ?_, ?_⟩
      · intro k
        simp only [faceVertexStep, hl, List.map_cons, List.mem_cons, hmem k,
          List.mem_append, List.mem_singleton]
        tauto
      · simp only [faceVertexStep, hl, List.length_append, List.length_cons,
          List.length_nil, hvlen]
        omega
      · simp only [faceVertexStep, hl, List.length_cons, hmlen]
      · simp only [faceVertexStep, hl]
        split <;>
          simp only [List.length_append, List.length_cons, List.length_nil, hnlen]
      · intro kv hkv
        simp only [faceVertexStep, hl, List.mem_cons] at hkv
        rcases hkv with hkv | hkv
        · simp only [faceVertexStep, hl]
          rw [hkv]
          omega
        · simp only [faceVertexStep, hl]
          exact Nat.lt_succ_of_lt (hmapb kv hkv)
      · intro i hi
        simp only [faceVertexStep, hl] at hi ⊢
        exact Nat.lt_succ_of_lt (hindb i hi)
    · simp only [faceVertexStep, hl]
      omega

/-- Every triangulated index is drawn from the face's vertex list. -/
lemma triangulate_subset (fv : List Nat) : ∀ i ∈ triangulate fv, i ∈ fv := by
  intro i hi
  by_cases h3 : 3 ≤ fv.length
  · rw [triangulate_eq_fan fv h3] at hi
    rcases List.mem_flatMap.1 hi with ⟨k, hk, hik⟩
    rw [List.mem_range] at hk
    simp only [List.mem_cons, List.not_mem_nil, or_false] at hik
    rcases hik with h | h | h
    · exact h ▸ getD_mem_of_lt fv 0 0 (by omega)
    · exact h ▸ getD_mem_of_lt fv (k + 1) 0 (by omega)
    · exact h ▸ getD_mem_of_lt fv (k + 2) 0 (by omega)
  · unfold triangulate at hi
    rw [if_neg (by omega), if_neg (by omega), if_neg (by omega)] at hi
    cases hi

/-- The face token loop keeps the invariant, appends exactly the
face's keys, and collects only in-range output indices. -/
lemma processFaceTokens_inv (toks : List JSStr) :
    ∀ (st : ObjState) (acc : List Nat) (ks : List ObjKey),
      ObjInv st ks → (∀ i ∈ acc, i < st.currentIndex) →
      ObjInv (toks.foldl
          (fun acc tok =>
            let r := faceVertexStep acc.1 tok
            (r.1, acc.2 ++ [r.2])) (st, acc)).1 (ks ++ toks.map keyOfToken)
      ∧ (∀ i ∈ (toks.foldl
          (fun acc tok =>
            let r := faceVertexStep acc.1 tok
            (r.1, acc.2 ++ [r.2])) (st, acc)).2,
          i < (toks.foldl
          (fun acc tok =>
            let r := faceVertexStep acc.1 tok
            (r.1, acc.2 ++ [r.2])) (st, acc)).1.currentIndex)
      ∧ st.currentIndex ≤ (toks.foldl
          (fun acc tok =>
            let r := faceVertexStep acc.1 tok
            (r.1, acc.2 ++ [r.2])) (st, acc)).1.currentIndex := by
  induction toks with
  | nil =>
    intro st acc ks h hacc
    simpa using ⟨h, hacc⟩
  | cons tok rest ih =>
    intro st acc ks h hacc
    simp only [List.foldl_cons, List.map_cons]
    obtain ⟨h1, h2, h3⟩ := faceVertexStep_inv st tok ks h
    have hacc1 : ∀ i ∈ acc ++ [(faceVertexStep st tok).2],
        i < (faceVertexStep st tok).1.currentIndex := by
      intro i hi
      rcases List.mem_append.1 hi with hi | hi
      · exact lt_of_lt_of_le (hacc i hi) h3
      · simp only [List.mem_singleton] at hi
        rw [hi]
        exact h2
    obtain ⟨g1, g2, g3⟩ := ih (faceVertexStep st tok).1 (acc ++ [(faceVertexStep st tok).2])
      (ks ++ [keyOfToken tok]) h1 hacc1
    refine ⟨by simpa using g1, g2, le_trans h3 g3⟩

/-- The invariant and range facts, packaged for `processFaceTokens`. -/
lemma processFaceTokens_inv_pack (st : ObjState) (toks : List JSStr) (ks : List ObjKey)
    (h : ObjInv st ks) :
    ObjInv (processFaceTokens st toks).1 (ks ++ toks.map keyOfToken)
    ∧ ∀ i ∈ (processFaceTokens st toks).2,
        i < (processFaceTokens st toks).1.currentIndex := by
  have hp := processFaceTokens_inv toks st [] ks h (by intro i hi; cases hi)
  exact ⟨hp.1, hp.2.1⟩

/-- One parsed line keeps the invariant while appending exactly the
line's face-vertex keys. -/
lemma objLine_inv (st : ObjState) (line : JSStr) (ks : List ObjKey) (h : ObjInv st ks) :
    ObjInv (objLine st line) (ks ++ lineKeys line) := by
  obtain ⟨hnd, hmem, hvlen, hmlen, hnlen, hmapb, hindb⟩ := h
  simp only [objLine, lineKeys]
  by_cases hskip : jsTrim line = [] ∨ List.isPrefixOf (str "#") (jsTrim line)
  · rw [if_pos hskip, if_pos hskip, List.append_nil]
    exact ⟨hnd, hmem, hvlen, hmlen, hnlen, hmapb, hindb⟩
  · rw [if_neg hskip, if_neg hskip]
    by_cases hv : (jsSplitWs (jsTrim line)).getD 0 [] = str "v"
    · rw [if_pos hv, if_neg (fun hc => by rw [hv] at hc; cases hc), List.append_nil]
      exact ⟨hnd, hmem, hvlen, hmlen, hnlen, hmapb, hindb⟩
    · rw [if_neg hv]
      by_cases hvn : (jsSplitWs (jsTrim line)).getD 0 [] = str "vn"
      · rw [if_pos hvn, if_neg (fun hc => by rw [hvn] at hc; cases hc), List.append_nil]
        exact ⟨hnd, hmem, hvlen, hmlen, hnlen, hmapb, hindb⟩
      · rw [if_neg hvn]
        by_cases hvt : (jsSplitWs (jsTrim line)).getD 0 [] = str "vt"
        · rw [if_pos hvt, if_neg (fun hc => by rw [hvt] at hc; cases hc), List.append_nil]
          exact ⟨hnd, hmem, hvlen, hmlen, hnlen, hmapb, hindb⟩
        · rw [if_neg hvt]
          by_cases hf : (jsSplitWs (jsTrim line)).getD 0 [] = str "f"
          · rw [if_pos hf, if_pos hf]
            obtain ⟨g1, g2⟩ := processFaceTokens_inv_pack st
              ((jsSplitWs (jsTrim line)).drop 1) ks
              ⟨hnd, hmem, hvlen, hmlen, hnlen, hmapb, hindb⟩
            obtain ⟨gnd, gmem, gvlen, gmlen, gnlen, gmapb, gindb⟩ := g1
            refine ⟨gnd, gmem, gvlen, gmlen, gnlen, gmapb, ?_⟩
            intro i hi
            rcases List.mem_append.1 hi with hi | hi
            · exact gindb i hi
            · exact g2 i (triangulate_subset _ i hi)
          · rw [if_neg hf, if_neg hf, List.append_nil]
            exact ⟨hnd, hmem, hvlen, hmlen, hnlen, hmapb, hindb⟩

/-- Folding the line processor over all lines accumulates exactly the
text's face-vertex keys. -/
lemma objLines_inv : ∀ (lines : List JSStr) (st : ObjState) (ks : List ObjKey),
    ObjInv st ks → ObjInv (lines.foldl objLine st) (ks ++ lines.flatMap lineKeys) := by
  intro lines
  induction lines with
  | nil => intro st ks h; simpa using h
  | cons line rest ih =>
    intro st ks h
    simp only [List.foldl_cons, List.flatMap_cons]
    have := ih (objLine st line) (ks ++ lineKeys line) (objLine_inv st line ks h)
    simpa [List.append_assoc] using this

/-- The state at the start of `parseOBJ` satisfies the invariant. -/
lemma initObjState_inv : ObjInv initObjState [] := by
  refine ⟨List.nodup_nil, fun k => Iff.rfl, rfl, rfl, rfl, ?_, ?_⟩
  · intro kv hkv; cases hkv
  · intro i hi; cases hi

/-- A duplicate-free list with the same members as `ks` counts the
distinct elements of `ks`. -/
lemma nodup_same_mem_length (l ks : List ObjKey) (hnd : l.Nodup)
    (hm : ∀ k, k ∈ l ↔ k ∈ ks) : l.length = ks.dedup.length := by
  calc l.length = l.dedup.length := by rw [List.dedup_eq_self.2 hnd]
    _ = l.toFinset.card := (List.card_toFinset l).symm
    _ = ks.toFinset.card := by
        congr 1
        ext k
        simp only [List.mem_toFinset]
        exact hm k
    _ = ks.dedup.length := List.card_toFinset ks

/-- Claim C7: `parseOBJ` emits exactly one output vertex per distinct
composite key (position index, texcoord index or sentinel, normal index
or sentinel) appearing in the text's face records - a recurring key
reuses its output vertex, so the vertex count (the scalar count divided
by three) equals the number of distinct keys. -/
theorem claim7_dedup (sqrtQ : ℚ → ℚ) (text : JSStr) :
    (parseOBJ sqrtQ text).vertices.length = 3 * (faceKeys text).dedup.length
    ∧ (parseOBJ sqrtQ text).vertices.length / 3 = (faceKeys text).dedup.length := by
  have hfin := objLines_inv (splitLines text) initObjState [] initObjState_inv
  rw [List.nil_append] at hfin
  obtain ⟨hnd, hmem, hvlen, hmlen, -, -, -⟩ := hfin
  have hcount : (((splitLines text).foldl objLine initObjState).vertexMap.map
      Prod.fst).length = (faceKeys text).dedup.length :=
    nodup_same_mem_length _ _ hnd (by intro k; rw [hmem k]; rw [faceKeys])
  rw [List.length_map] at hcount
  have hv : (parseOBJ sqrtQ text).vertices =
      ((splitLines text).foldl objLine initObjState).vertices := rfl
  rw [hv, hvlen, ← hmlen, hcount]
  omega

/-! ## The MeshBuffer invariant -/

/-- The buffer invariant of the spec: one normal per vertex scalar and
every index below the vertex count. -/
def MeshInv (m : MeshData) : Prop :=
  m.normals.length = m.vertices.length
  ∧ ∀ i ∈ m.indices, i < m.vertices.length / 3

/-- The largest index a grid cell `(r, c)` emits stays inside the
`(R+1) × (C+1)` vertex grid. -/
lemma grid_cell_bound (R C r c : Nat) (hr : r < R) (hc : c < C) :
    r * (C + 1) + c + (C + 1) + 1 < (R + 1) * (C + 1) := by
  calc r * (C + 1) + c + (C + 1) + 1 = (r + 1) * (C + 1) + (c + 1) := by ring
    _ < (r + 1) * (C + 1) + (C + 1) := by omega
    _ = (r + 2) * (C + 1) := by ring
    _ ≤ (R + 1) * (C + 1) := Nat.mul_le_mul_right _ (by omega)

/-- Sizes and index bounds of `createSphere`. -/
lemma createSphere_facts (sinQ cosQ : ℚ → ℚ) (piQ : ℚ) (r : Option ℚ)
    (latB lonB : Nat) :
    (createSphere sinQ cosQ piQ r latB lonB).vertices.length
        = 3 * ((latB + 1) * (lonB + 1))
    ∧ (createSphere sinQ cosQ piQ r latB lonB).normals.length
        = (createSphere sinQ cosQ piQ r latB lonB).vertices.length
    ∧ ∀ i ∈ (createSphere sinQ cosQ piQ r latB lonB).indices,
        i < (latB + 1) * (lonB + 1) := by
  refine ⟨?_, ?_, ?_⟩
  · rw [createSphere, length_tripleFlat, grid_length]
  · rw [createSphere, length_tripleFlat, length_tripleFlat]
  · intro i hi
    simp only [createSphere, List.mem_flatMap, List.mem_range, List.mem_cons,
      List.not_mem_nil, or_false] at hi
    obtain ⟨lat, hlat, lon, hlon, hc⟩ := hi
    have hb := grid_cell_bound latB lonB lat lon hlat hlon
    rcases hc with rfl | rfl | rfl | rfl | rfl | rfl <;> linarith

/-- Sizes and index bounds of `createCylinder`. -/
lemma createCylinder_facts (sinQ cosQ : ℚ → ℚ) (piQ : ℚ) (rT rB h : Option ℚ)
    (radialSegments : Nat) :
    (createCylinder sinQ cosQ piQ rT rB h radialSegments).vertices.length
        = 3 * (2 * (radialSegments + 1))
    ∧ (createCylinder sinQ cosQ piQ rT rB h radialSegments).normals.length
        = (createCylinder sinQ cosQ piQ rT rB h radialSegments).vertices.length
    ∧ ∀ i ∈ (createCylinder sinQ cosQ piQ rT rB h radialSegments).indices,
        i < 2 * (radialSegments + 1) := by
  refine ⟨?_, ?_, ?_⟩
  · rw [createCylinder, length_tripleFlat, grid_length]
  · rw [createCylinder, length_tripleFlat, length_tripleFlat]
  · intro i hi
    simp only [createCylinder, List.mem_flatMap, List.mem_range, List.mem_cons,
      List.not_mem_nil, or_false] at hi
    obtain ⟨y, hy, x, hx, hc⟩ := hi
    have hy0 : y = 0 := by omega
    subst hy0
    rcases hc with rfl | rfl | rfl | rfl | rfl | rfl <;> omega

/-- Sizes and index bounds of `createPlane`. -/
lemma createPlane_facts (w h : Option ℚ) (widthSegments heightSegments : Nat) :
    (createPlane w h widthSegments heightSegments).vertices.length
        = 3 * ((heightSegments + 1) * (widthSegments + 1))
    ∧ (createPlane w h widthSegments heightSegments).normals.length
        = (createPlane w h widthSegments heightSegments).vertices.length
    ∧ ∀ i ∈ (createPlane w h widthSegments heightSegments).indices,
        i < (heightSegments + 1) * (widthSegments + 1) := by
  refine ⟨?_, ?_, ?_⟩
  · rw [createPlane, length_tripleFlat, grid_length]
  · rw [createPlane, length_tripleFlat, length_tripleFlat]
  · intro i hi
    simp only [createPlane, List.mem_flatMap, List.mem_range, List.mem_cons,
      List.not_mem_nil, or_false] at hi
    obtain ⟨iy, hiy, ix, hix, hc⟩ := hi
    have hb := grid_cell_bound heightSegments widthSegments iy ix hiy hix
    rcases hc with rfl | rfl | rfl | rfl | rfl | rfl <;> linarith

@[simp] lemma length_accumAt (acc : List (Option ℚ)) (idx : Nat) (v : Option ℚ) :
    (accumAt acc idx v).length = acc.length := by
  simp [accumAt]

lemma length_accumTriangle (vertices acc : List (Option ℚ)) (i0 i1 i2 : Nat) :
    (accumTriangle vertices acc i0 i1 i2).length = acc.length := by
  simp [accumTriangle]

lemma length_accumTriangles (vertices : List (Option ℚ)) :
    ∀ (indices : List Nat) (acc : List (Option ℚ)),
      (accumTriangles vertices acc indices).length = acc.length
  | [], acc => by simp [accumTriangles]
  | [i0], acc => by simp [accumTriangles]
  | [i0, i1], acc => by simp [accumTriangles]
  | i0 :: i1 :: i2 :: rest, acc => by
    simp only [accumTriangles]
    rw [length_accumTriangles vertices rest _, length_accumTriangle]

/-- A flattening through three entries per cell triples the length. -/
lemma length_flatMap_three {α β : Type} (cells : List α) (f : α → List β)
    (h : ∀ c ∈ cells, (f c).length = 3) :
    (cells.flatMap f).length = 3 * cells.length := by
  induction cells with
  | nil => rfl
  | cons c rest ih =>
    rw [List.flatMap_cons, List.length_append, h c (List.mem_cons_self _ _),
      ih (fun d hd => h d (List.mem_cons_of_mem _ hd)), List.length_cons]
    ring

/-- `calculateNormals` emits three scalars per vertex triple. -/
lemma length_calculateNormals (sqrtQ : ℚ → ℚ) (vertices : List (Option ℚ))
    (indices : List Nat) :
    (calculateNormals sqrtQ vertices indices).length = 3 * (vertices.length / 3) := by
  rw [calculateNormals]
  rw [length_flatMap_three _ _ (by
    intro c hc
    dsimp only
    split <;> rfl)]
  rw [length_chunks3, length_accumTriangles, List.length_replicate]

/-- The running invariant of `generateProteinGeometry`'s accumulator:
parallel buffers and in-range indices. -/
def GeoInv (acc : GeoAcc) : Prop :=
  acc.normals.length = acc.vertices.length
  ∧ acc.colors.length = acc.vertices.length
  ∧ acc.vertices.length = 3 * acc.currentIndex
  ∧ ∀ i ∈ acc.indices, i < acc.currentIndex

/-- Appending one well-formed submesh keeps the accumulator invariant. -/
lemma addSubmesh_inv (acc : GeoAcc) (mesh : MeshData) (tx ty tz : Option ℚ)
    (cR cG cB : ℚ) (hacc : GeoInv acc)
    (hm2 : ∃ n, mesh.vertices.length = 3 * n)
    (hm3 : ∀ i ∈ mesh.indices, i < mesh.vertices.length / 3) :
    GeoInv (addSubmesh acc mesh tx ty tz cR cG cB) := by
  obtain ⟨h1, h2, h3, h4⟩ := hacc
  obtain ⟨n, hn⟩ := hm2
  have htrip : (chunks3 mesh.vertices).length = n := by
    rw [length_chunks3, hn]
    omega
  have hnorm := length_flatMap_three (List.range (chunks3 mesh.vertices).length)
    (fun k => [mesh.normals.getD (3 * k) none, mesh.normals.getD (3 * k + 1) none,
      mesh.normals.getD (3 * k + 2) none]) (fun c _ => rfl)
  have hcol := length_flatMap_three (chunks3 mesh.vertices)
    (fun _ => ([cR, cG, cB] : List ℚ)) (fun c _ => rfl)
  refine ⟨?_, ?_, ?_, ?_⟩
  · simp only [addSubmesh, List.length_append, length_tripleFlat, h1, hnorm,
      List.length_range, htrip]
  · simp only [addSubmesh, List.length_append, length_tripleFlat, h2, hcol, htrip]
  · simp only [addSubmesh, List.length_append, length_tripleFlat, h3, htrip, hn]
    omega
  · intro i hi
    simp only [addSubmesh, List.mem_append, List.mem_map] at hi
    simp only [addSubmesh]
    rcases hi with hi | ⟨j, hj, hji⟩
    · exact lt_of_lt_of_le (h4 i hi) (Nat.le_add_right _ _)
    · have hjb := hm3 j hj
      omega

/-- A fold of invariant-preserving steps preserves the invariant. -/
lemma foldl_geoInv {α : Type} (f : GeoAcc → α → GeoAcc)
    (hf : ∀ acc a, GeoInv acc → GeoInv (f acc a)) :
    ∀ (l : List α) (acc : GeoAcc), GeoInv acc → GeoInv (l.foldl f acc) := by
  intro l
  induction l with
  | nil => intro acc h; exact h
  | cons a rest ih =>
    intro acc h
    exact ih (f acc a) (hf acc a h)

/-- Claim C4: every buffer produced by the mesh factories, the OBJ
parse, and the protein geometry assembler (instantiated with the sphere
and cylinder factories, as the source does) keeps positions, normals
(and colors, when present) in lockstep and references only existing
vertices from its index list - for any parameters, any text, and any
number of atoms and bonds. -/
theorem claim4_meshBuffer :
    (∀ size : Option ℚ, MeshInv (createCube size))
    ∧ (∀ (sinQ cosQ : ℚ → ℚ) (piQ : ℚ) (r : Option ℚ) (latB lonB : Nat),
        MeshInv (createSphere sinQ cosQ piQ r latB lonB))
    ∧ (∀ (sinQ cosQ : ℚ → ℚ) (piQ : ℚ) (rT rB h : Option ℚ) (rS : Nat),
        MeshInv (createCylinder sinQ cosQ piQ rT rB h rS))
    ∧ (∀ (w h : Option ℚ) (wS hS : Nat), MeshInv (createPlane w h wS hS))
    ∧ (∀ (sqrtQ : ℚ → ℚ) (text : JSStr), MeshInv (parseOBJ sqrtQ text))
    ∧ (∀ (sqrtQ sinQ cosQ : ℚ → ℚ) (piQ : ℚ) (bas : BallAndStick),
        (generateProteinGeometry sqrtQ (createSphere sinQ cosQ piQ)
            (createCylinder sinQ cosQ piQ) bas).normals.length =
          (generateProteinGeometry sqrtQ (createSphere sinQ cosQ piQ)
            (createCylinder sinQ cosQ piQ) bas).vertices.length
        ∧ (generateProteinGeometry sqrtQ (createSphere sinQ cosQ piQ)
            (createCylinder sinQ cosQ piQ) bas).colors.length =
          (generateProteinGeometry sqrtQ (createSphere sinQ cosQ piQ)
            (createCylinder sinQ cosQ piQ) bas).vertices.length
        ∧ ∀ i ∈ (generateProteinGeometry sqrtQ (createSphere sinQ cosQ piQ)
            (createCylinder sinQ cosQ piQ) bas).indices,
            i < (generateProteinGeometry sqrtQ (createSphere sinQ cosQ piQ)
              (createCylinder sinQ cosQ piQ) bas).vertices.length / 3) := by
  refine ⟨?_, ?_, ?_, ?_, ?_, ?_⟩
  · -- cube
    intro size
    refine ⟨rfl, ?_⟩
    intro i hi
    rw [show (createCube size).indices =
      [0, 1, 2,  0, 2, 3,  4, 5, 6,  4, 6, 7,
       8, 9, 10,  8, 10, 11,  12, 13, 14,  12, 14, 15,
       16, 17, 18,  16, 18, 19,  20, 21, 22,  20, 22, 23] from rfl] at hi
    rw [show (createCube size).vertices.length = 72 from rfl]
    revert i
    decide
  · -- sphere
    intro sinQ cosQ piQ r latB lonB
    obtain ⟨hv, hn, hb⟩ := createSphere_facts sinQ cosQ piQ r latB lonB
    refine ⟨hn, ?_⟩
    intro i hi
    rw [hv]
    have := hb i hi
    omega
  · -- cylinder
    intro sinQ cosQ piQ rT rB h rS
    obtain ⟨hv, hn, hb⟩ := createCylinder_facts sinQ cosQ piQ rT rB h rS
    refine ⟨hn, ?_⟩
    intro i hi
    rw [hv]
    have := hb i hi
    omega
  · -- plane
    intro w h wS hS
    obtain ⟨hv, hn, hb⟩ := createPlane_facts w h wS hS
    refine ⟨hn, ?_⟩
    intro i hi
    rw [hv]
    have := hb i hi
    omega
  · -- parseOBJ
    intro sqrtQ text
    have hfin := objLines_inv (splitLines text) initObjState [] initObjState_inv
    rw [List.nil_append] at hfin
    obtain ⟨-, -, hvlen, -, hnlen, -, hindb⟩ := hfin
    have hverts : (parseOBJ sqrtQ text).vertices =
        ((splitLines text).foldl objLine initObjState).vertices := rfl
    have hinds : (parseOBJ sqrtQ text).indices =
        ((splitLines text).foldl objLine initObjState).indices := rfl
    have hnorms : (parseOBJ sqrtQ text).normals =
        (if ((splitLines text).foldl objLine initObjState).vertexNormals = [] then
          calculateNormals sqrtQ
            ((splitLines text).foldl objLine initObjState).vertices
            ((splitLines text).foldl objLine initObjState).indices
        else ((splitLines text).foldl objLine initObjState).vertexNormals) := rfl
    constructor
    · rw [hnorms, hverts]
      by_cases hz : ((splitLines text).foldl objLine initObjState).vertexNormals = []
      · rw [if_pos hz, length_calculateNormals, hvlen]
        omega
      · rw [if_neg hz]
        exact hnlen
    · intro i hi
      rw [hinds] at hi
      rw [hverts, hvlen]
      have := hindb i hi
      omega
  · -- generateProteinGeometry
    intro sqrtQ sinQ cosQ piQ bas
    have hinit : GeoInv ⟨[], [], [], [], 0⟩ :=
      ⟨rfl, rfl, rfl, fun i hi => absurd hi (List.not_mem_nil i)⟩
    have hstep1 : ∀ (acc : GeoAcc) (a : AtomGeom), GeoInv acc →
        GeoInv (addSubmesh acc (createSphere sinQ cosQ piQ a.radius 10 10)
          a.posX a.posY a.posZ a.colR a.colG a.colB) := by
      intro acc a hg
      obtain ⟨hv, -, hb⟩ := createSphere_facts sinQ cosQ piQ a.radius 10 10
      refine addSubmesh_inv _ _ _ _ _ _ _ _ hg ⟨(10 + 1) * (10 + 1), hv⟩ ?_
      intro i hi
      rw [hv]
      have := hb i hi
      omega
    have h1 : GeoInv (bas.atomGeometries.foldl
        (fun acc a => addSubmesh acc (createSphere sinQ cosQ piQ a.radius 10 10)
          a.posX a.posY a.posZ a.colR a.colG a.colB) ⟨[], [], [], [], 0⟩) :=
      foldl_geoInv _ hstep1 _ _ hinit
    have hstep2 : ∀ (acc : GeoAcc) (b : BondGeom), GeoInv acc →
        GeoInv (addSubmesh acc
          (createCylinder sinQ cosQ piQ b.radius b.radius
            ((optAdd (optAdd (optMul (optSub b.endX b.startX) (optSub b.endX b.startX))
              (optMul (optSub b.endY b.startY) (optSub b.endY b.startY)))
              (optMul (optSub b.endZ b.startZ) (optSub b.endZ b.startZ))).map sqrtQ) 8)
          (optDiv (optAdd b.startX b.endX) (some 2))
          (optDiv (optAdd b.startY b.endY) (some 2))
          (optDiv (optAdd b.startZ b.endZ) (some 2)) b.colR b.colG b.colB) := by
      intro acc b hg
      obtain ⟨hv, -, hb⟩ := createCylinder_facts sinQ cosQ piQ b.radius b.radius _ 8
      refine addSubmesh_inv _ _ _ _ _ _ _ _ hg ⟨2 * (8 + 1), hv⟩ ?_
      intro i hi
      rw [hv]
      have := hb i hi
      omega
    have h2 : GeoInv (bas.bondGeometries.foldl
        (fun acc b => addSubmesh acc
          (createCylinder sinQ cosQ piQ b.radius b.radius
            ((optAdd (optAdd (optMul (optSub b.endX b.startX) (optSub b.endX b.startX))
              (optMul (optSub b.endY b.startY) (optSub b.endY b.startY)))
              (optMul (optSub b.endZ b.startZ) (optSub b.endZ b.startZ))).map sqrtQ) 8)
          (optDiv (optAdd b.startX b.endX) (some 2))
          (optDiv (optAdd b.startY b.endY) (some 2))
          (optDiv (optAdd b.startZ b.endZ) (some 2)) b.colR b.colG b.colB)
        (bas.atomGeometries.foldl
          (fun acc a => addSubmesh acc (createSphere sinQ cosQ piQ a.radius 10 10)
            a.posX a.posY a.posZ a.colR a.colG a.colB) ⟨[], [], [], [], 0⟩)) :=
      foldl_geoInv _ hstep2 _ _ h1
    obtain ⟨g1, g2, g3, g4⟩ := h2
    refine ⟨g1, g2, ?_⟩
    intro i hi
    have key : ∀ n m : Nat, m = 3 * n → i < n → i < m / 3 := by
      intro n m hm hn
      omega
    exact key _ _ g3 (g4 i hi)

/-! ## Bond inference characterization -/

/-- An in-range `getD` read agrees with the `get?` view. -/
lemma get?_eq_some_getD {α : Type} [Inhabited α] (l : List α) (i : Nat)
    (h : i < l.length) : l.get? i = some (l.getD i default) := by
  rw [List.get?_eq_getElem?, List.getElem?_eq_getElem h, List.getD_eq_getElem?_getD,
    List.getElem?_eq_getElem h]
  rfl

/-- Membership in `calculateBonds`, unfolded to the pair conditions the
loop checks. -/
lemma mem_calculateBonds (atoms : List Atom) (t : ℚ) (b : Bond) :
    b ∈ calculateBonds atoms t ↔
      b.atom1 < b.atom2 ∧ b.atom2 < atoms.length
      ∧ (atoms.getD b.atom1 default).element ≠ str "H"
      ∧ (atoms.getD b.atom2 default).element ≠ str "H"
      ∧ sqrtLt (optDistSq (atoms.getD b.atom1 default) (atoms.getD b.atom2 default)) t = true
      ∧ b.distSq = optDistSq (atoms.getD b.atom1 default) (atoms.getD b.atom2 default) := by
  simp only [calculateBonds, List.mem_flatMap, List.mem_filterMap, List.mem_range,
    List.mem_range'_1]
  constructor
  · rintro ⟨i, hi, j, ⟨hj1, hj2⟩, hstep⟩
    by_cases hH : (atoms.getD i default).element = str "H"
        ∨ (atoms.getD j default).element = str "H"
    · rw [if_pos hH] at hstep
      cases hstep
    · rw [if_neg hH] at hstep
      by_cases hd : sqrtLt (optDistSq (atoms.getD i default) (atoms.getD j default)) t = true
      · rw [if_pos hd] at hstep
        have hb := Option.some_injective _ hstep
        subst hb
        push_neg at hH
        dsimp only
        exact ⟨by omega, by omega, hH.1, hH.2, hd, rfl⟩
      · rw [if_neg hd] at hstep
        cases hstep
  · rintro ⟨hij, hlen, hH1, hH2, hd, hds⟩
    refine ⟨b.atom1, by omega, b.atom2, ⟨by omega, by omega⟩, ?_⟩
    rw [if_neg (by push_neg; exact ⟨hH1, hH2⟩), if_pos hd]
    rcases b with ⟨i, j, ds⟩
    simp only at hds
    rw [hds]

/-- Generic uniqueness of the triangular double-loop emission: when the
emitted element remembers both loop counters, each pair is emitted at
most once. -/
lemma nodup_pairs_double_loop {β : Type} (n : Nat) (w : Nat → Nat)
    (g : Nat → Nat → Option β) (fst snd : β → Nat)
    (hfst : ∀ i j b, g i j = some b → fst b = i)
    (hsnd : ∀ i j b, g i j = some b → snd b = j) :
    (((List.range n).flatMap (fun i =>
        (List.range' (i + 1) (w i)).filterMap (g i))).map
      (fun b => (fst b, snd b))).Nodup := by
  rw [List.map_flatMap, List.nodup_flatMap]
  constructor
  · intro i hi
    rw [List.map_filterMap]
    refine List.Nodup.filterMap ?_ (List.nodup_range' _ _)
    intro j j' p hp hp'
    cases hj : g i j with
    | none => rw [hj] at hp; cases hp
    | some b =>
      cases hj' : g i j' with
      | none => rw [hj'] at hp'; cases hp'
      | some b' =>
        rw [hj] at hp
        rw [hj'] at hp'
        simp only [Option.map_some', Option.mem_def, Option.some.injEq] at hp hp'
        have heq : (fst b, snd b) = (fst b', snd b') := hp.trans hp'.symm
        have h1 := hsnd i j b hj
        have h2 := hsnd i j' b' hj'
        have := congrArg Prod.snd heq
        simp only at this
        omega
  · have hlt := List.pairwise_lt_range n
    refine hlt.imp ?_
    intro i i' hii
    simp only [Function.onFun, List.Disjoint]
    intro p hp hp'
    rw [List.map_filterMap, List.mem_filterMap] at hp hp'
    obtain ⟨j, -, hj⟩ := hp
    obtain ⟨j', -, hj'⟩ := hp'
    cases hgj : g i j with
    | none => rw [hgj] at hj; cases hj
    | some b =>
      cases hgj' : g i' j' with
      | none => rw [hgj'] at hj'; cases hj'
      | some b' =>
        rw [hgj] at hj
        rw [hgj'] at hj'
        simp only [Option.map_some', Option.some.injEq] at hj hj'
        have heq : (fst b, snd b) = (fst b', snd b') := hj.trans hj'.symm
        have h1 := hfst i j b hgj
        have h2 := hfst i' j' b' hgj'
        have := congrArg Prod.fst heq
        simp only at this
        omega

/-- Claim C1: `calculateBonds` returns exactly the unordered pairs
`(i, j)`, `i < j`, of in-range atoms with neither element `H` whose
Euclidean distance (`Real.sqrt` of the exact squared distance) is
strictly below the threshold - and each qualifying pair appears exactly
once, hydrogen pairs never. -/
theorem claim1_bonds (atoms : List Atom) (t : ℚ) :
    (∀ i j : Nat,
      (∃ b ∈ calculateBonds atoms t, b.atom1 = i ∧ b.atom2 = j) ↔
      (∃ a1 a2 : Atom, atoms.get? i = some a1 ∧ atoms.get? j = some a2 ∧ i < j
        ∧ a1.element ≠ str "H" ∧ a2.element ≠ str "H"
        ∧ ∃ s : ℚ, optDistSq a1 a2 = some s ∧ Real.sqrt (s : ℝ) < (t : ℝ)))
    ∧ ((calculateBonds atoms t).map (fun b => (b.atom1, b.atom2))).Nodup := by
  constructor
  · intro i j
    constructor
    · rintro ⟨b, hb, rfl, rfl⟩
      obtain ⟨hij, hlen, hH1, hH2, hd, -⟩ := (mem_calculateBonds atoms t b).1 hb
      refine ⟨atoms.getD b.atom1 default, atoms.getD b.atom2 default,
        get?_eq_some_getD _ _ (by omega), get?_eq_some_getD _ _ hlen, hij, hH1, hH2, ?_⟩
      cases hs : optDistSq (atoms.getD b.atom1 default) (atoms.getD b.atom2 default) with
      | none =>
        rw [hs] at hd
        cases hd
      | some s =>
        rw [hs] at hd
        exact ⟨s, rfl, (sqrtLt_iff_real s t).1 hd⟩
    · rintro ⟨a1, a2, h1, h2, hij, hH1, hH2, s, hs, hlt⟩
      have hi : i < atoms.length := (List.get?_eq_some.1 h1).1
      have hj : j < atoms.length := (List.get?_eq_some.1 h2).1
      have ha1 : atoms.getD i default = a1 := by
        have hg := get?_eq_some_getD atoms i hi
        rw [h1] at hg
        exact (Option.some_injective _ hg).symm
      have ha2 : atoms.getD j default = a2 := by
        have hg := get?_eq_some_getD atoms j hj
        rw [h2] at hg
        exact (Option.some_injective _ hg).symm
      refine ⟨⟨i, j, optDistSq a1 a2⟩, ?_, rfl, rfl⟩
      rw [mem_calculateBonds]
      dsimp only
      rw [ha1, ha2]
      refine ⟨hij, hj, hH1, hH2, ?_, rfl⟩
      rw [hs]
      exact (sqrtLt_iff_real s t).2 hlt
  · exact nodup_pairs_double_loop atoms.length (fun i => atoms.length - (i + 1))
      (fun i j =>
        if (atoms.getD i default).element = str "H"
            ∨ (atoms.getD j default).element = str "H" then none
        else if sqrtLt (optDistSq (atoms.getD i default) (atoms.getD j default)) t then
          some { atom1 := i, atom2 := j,
                 distSq := optDistSq (atoms.getD i default) (atoms.getD j default) }
        else none)
      Bond.atom1 Bond.atom2
      (by
        intro i j b h
        dsimp only at h
        split_ifs at h
        all_goals cases h
        all_goals rfl)
      (by
        intro i j b h
        dsimp only at h
        split_ifs at h
        all_goals cases h
        all_goals rfl)

/-! ## Centering leaves bonds unchanged -/

/-- A sum of finite JS numbers is finite. -/
lemma optSum_isSome (l : List (Option ℚ)) (h : ∀ v ∈ l, v.isSome) :
    (optSum l).isSome := by
  have aux : ∀ (l : List (Option ℚ)) (init : Option ℚ), init.isSome →
      (∀ v ∈ l, v.isSome) → (l.foldl optAdd init).isSome := by
    intro l
    induction l with
    | nil => intro init hi _; exact hi
    | cons v rest ih =>
      intro init hi hall
      rw [List.foldl_cons]
      refine ih (optAdd init v) ?_ (fun u hu => hall u (List.mem_cons_of_mem _ hu))
      obtain ⟨a, ha⟩ := Option.isSome_iff_exists.1 hi
      obtain ⟨b, hb⟩ := Option.isSome_iff_exists.1 (hall v (List.mem_cons_self _ _))
      rw [ha, hb]
      rfl
  exact aux l (some 0) rfl h

/-- A `getD` read through `map`, in range. -/
lemma getD_map_lt {α β : Type} [Inhabited α] [Inhabited β] (f : α → β)
    (l : List α) (i : Nat) (h : i < l.length) :
    (l.map f).getD i default = f (l.getD i default) := by
  rw [List.getD_eq_getElem?_getD, List.getElem?_eq_getElem (by simpa using h),
    List.getElem_map, List.getD_eq_getElem?_getD, List.getElem?_eq_getElem h]
  rfl

/-- Claim C10, amended: recentring the molecule (`centerMolecule`,
subtracting the mean position) leaves `calculateBonds` unchanged -
same pairs in the same order with the same squared distances - for
every nonempty atom list with finite (non-NaN) coordinates and every
threshold, exactly because pairwise coordinate differences are
translation invariant.  The finiteness hypothesis is necessary: with a
NaN coordinate present the mean is NaN and the equality fails
(`claim10_counterexample`). -/
theorem claim10_center_bonds (atoms : List Atom) (t : ℚ) (hne : atoms ≠ [])
    (hfin : ∀ a ∈ atoms, a.x.isSome ∧ a.y.isSome ∧ a.z.isSome) :
    calculateBonds (centerMolecule atoms) t = calculateBonds atoms t := by
  have hlen0 : 0 < atoms.length := List.length_pos.2 hne
  have hcastne : ((atoms.length : ℚ)) ≠ 0 := by
    simp only [ne_eq, Nat.cast_eq_zero]
    omega
  obtain ⟨sx, hsx⟩ := Option.isSome_iff_exists.1
    (optSum_isSome (atoms.map (·.x)) (by
      intro v hv
      obtain ⟨a, ha, rfl⟩ := List.mem_map.1 hv
      exact (hfin a ha).1))
  obtain ⟨sy, hsy⟩ := Option.isSome_iff_exists.1
    (optSum_isSome (atoms.map (·.y)) (by
      intro v hv
      obtain ⟨a, ha, rfl⟩ := List.mem_map.1 hv
      exact (hfin a ha).2.1))
  obtain ⟨sz, hsz⟩ := Option.isSome_iff_exists.1
    (optSum_isSome (atoms.map (·.z)) (by
      intro v hv
      obtain ⟨a, ha, rfl⟩ := List.mem_map.1 hv
      exact (hfin a ha).2.2))
  have hcx : optDiv (optSum (atoms.map (·.x))) (some (atoms.length : ℚ))
      = some (sx / (atoms.length : ℚ)) := by
    rw [hsx, optDiv_some_some, if_neg hcastne]
  have hcy : optDiv (optSum (atoms.map (·.y))) (some (atoms.length : ℚ))
      = some (sy / (atoms.length : ℚ)) := by
    rw [hsy, optDiv_some_some, if_neg hcastne]
  have hcz : optDiv (optSum (atoms.map (·.z))) (some (atoms.length : ℚ))
      = some (sz / (atoms.length : ℚ)) := by
    rw [hsz, optDiv_some_some, if_neg hcastne]
  have hc : centerMolecule atoms = atoms.map (fun a =>
      { a with
        x := optSub a.x (some (sx / (atoms.length : ℚ)))
        y := optSub a.y (some (sy / (atoms.length : ℚ)))
        z := optSub a.z (some (sz / (atoms.length : ℚ))) }) := by
    simp only [centerMolecule, if_neg hne, hcx, hcy, hcz]
  unfold calculateBonds
  rw [centerMolecule_length]
  refine List.flatMap_congr ?_
  intro i hi
  rw [List.mem_range] at hi
  refine List.filterMap_congr ?_
  intro j hj
  rw [List.mem_range'_1] at hj
  have hjlt : j < atoms.length := by omega
  rw [hc, getD_map_lt _ _ _ hi, getD_map_lt _ _ _ hjlt]
  obtain ⟨hx1, hy1, hz1⟩ := hfin (atoms.getD i default) (getD_mem_of_lt _ _ _ hi)
  obtain ⟨hx2, hy2, hz2⟩ := hfin (atoms.getD j default) (getD_mem_of_lt _ _ _ hjlt)
  obtain ⟨x1, hx1⟩ := Option.isSome_iff_exists.1 hx1
  obtain ⟨y1, hy1⟩ := Option.isSome_iff_exists.1 hy1
  obtain ⟨z1, hz1⟩ := Option.isSome_iff_exists.1 hz1
  obtain ⟨x2, hx2⟩ := Option.isSome_iff_exists.1 hx2
  obtain ⟨y2, hy2⟩ := Option.isSome_iff_exists.1 hy2
  obtain ⟨z2, hz2⟩ := Option.isSome_iff_exists.1 hz2
  have hdist : optDistSq
      { atoms.getD i default with
        x := optSub (atoms.getD i default).x (some (sx / (atoms.length : ℚ)))
        y := optSub (atoms.getD i default).y (some (sy / (atoms.length : ℚ)))
        z := optSub (atoms.getD i default).z (some (sz / (atoms.length : ℚ))) }
      { atoms.getD j default with
        x := optSub (atoms.getD j default).x (some (sx / (atoms.length : ℚ)))
        y := optSub (atoms.getD j default).y (some (sy / (atoms.length : ℚ)))
        z := optSub (atoms.getD j default).z (some (sz / (atoms.length : ℚ))) }
      = optDistSq (atoms.getD i default) (atoms.getD j default) := by
    simp only [optDistSq, hx1, hy1, hz1, hx2, hy2, hz2, optSub_some_some,
      optMul_some_some, optAdd_some_some]
    congr 2 <;> ring
  dsimp only
  rw [hdist]

/-- Two finite carbon atoms, 1.5 apart on the z axis. -/
def atomsW : List Atom :=
  [{ serial := some 1, name := str "C", resName := str "UNL", chainId := str "A",
     resSeq := some 1, x := some 1, y := some 2, z := some 0, element := str "C" },
   { serial := some 2, name := str "C", resName := str "UNL", chainId := str "A",
     resSeq := some 2, x := some 1, y := some 2, z := some (3 / 2), element := str "C" }]

/-- Closed witness for claim C10 at two concrete atoms and the default
threshold. -/
theorem claim10_witness :
    atomsW ≠ []
    ∧ (∀ a ∈ atomsW, a.x.isSome ∧ a.y.isSome ∧ a.z.isSome)
    ∧ calculateBonds (centerMolecule atomsW) (9 / 5) = calculateBonds atomsW (9 / 5) :=
  ⟨by decide, by decide, claim10_center_bonds atomsW (9 / 5) (by decide) (by decide)⟩

/-- Three carbon atoms: two finite ones 1 apart on the z axis, and a
third whose x coordinate is NaN (`none`), as `parsePDB` produces on an
unreadable coordinate column. -/
def atomsX : List Atom :=
  [{ serial := some 1, name := str "C", resName := str "UNL", chainId := str "A",
     resSeq := some 1, x := some 0, y := some 0, z := some 0, element := str "C" },
   { serial := some 2, name := str "C", resName := str "UNL", chainId := str "A",
     resSeq := some 2, x := some 0, y := some 0, z := some 1, element := str "C" },
   { serial := some 3, name := str "C", resName := str "UNL", chainId := str "A",
     resSeq := some 3, x := none, y := some 0, z := some 0, element := str "C" }]

/-- Claim C10, counterexample to the unconditional claim: on a
nonempty atom list with one NaN coordinate (reachable from `parsePDB`
on a malformed coordinate column) the mean position is NaN, so every
centered coordinate is NaN and centering does NOT preserve the bond
set: the centered bond list is empty while the raw atoms - two
carbons 1 apart, under the default 1.8 threshold - do bond. -/
theorem claim10_counterexample :
    calculateBonds (centerMolecule atomsX) (9 / 5) = []
    ∧ calculateBonds atomsX (9 / 5) ≠ []
    ∧ calculateBonds (centerMolecule atomsX) (9 / 5) ≠ calculateBonds atomsX (9 / 5) := by
  have hcen : calculateBonds (centerMolecule atomsX) (9 / 5) = [] := by decide
  have hd : optDistSq (atomsX.getD 0 default) (atomsX.getD 1 default)
      = some (((0 - 0) * (0 - 0) + (0 - 0) * (0 - 0)) + (0 - 1) * (0 - 1) : ℚ) := rfl
  have hslt : sqrtLt (optDistSq (atomsX.getD 0 default) (atomsX.getD 1 default)) (9 / 5)
      = true := by
    rw [hd]
    simp only [sqrtLt, decide_eq_true_eq]
    norm_num
  have hmem : (⟨0, 1, optDistSq (atomsX.getD 0 default) (atomsX.getD 1 default)⟩ : Bond)
      ∈ calculateBonds atomsX (9 / 5) := by
    rw [mem_calculateBonds]
    exact ⟨by decide, by decide, by decide, by decide, hslt, rfl⟩
  have hraw : calculateBonds atomsX (9 / 5) ≠ [] := by
    intro h
    rw [h] at hmem
    exact List.not_mem_nil _ hmem
  exact ⟨hcen, hraw, by rw [hcen]; exact Ne.symm hraw⟩

/-! ## Backbone extraction characterization -/

/-- The CA atoms of one chain, projected, in file order - the reference
reading of what one chain group must hold. -/
def caProj (atoms : List Atom) (c : JSStr) : List BBAtom :=
  (atoms.filter (fun a => decide (a.name = str "CA" ∧ effChain a = c))).map projBB

/-- One chain's CA projections sorted ascending by residue sequence
number - the list claim C5 speaks about. -/
def sortedCA (atoms : List Atom) (c : JSStr) : List BBAtom :=
  (caProj atoms c).mergeSort resSeqLe

/-- Pushing onto the present key appends to its group. -/
lemma lookup_pushChain_self (c : JSStr) (b : BBAtom) :
    ∀ ch : List (JSStr × List BBAtom),
      List.lookup c (pushChain ch c b) = some ((List.lookup c ch).getD [] ++ [b]) := by
  intro ch
  induction ch with
  | nil => simp [pushChain, List.lookup_cons]
  | cons cg rest ih =>
    rcases cg with ⟨c', g⟩
    by_cases hc : c' = c
    · subst hc
      simp [pushChain, List.lookup_cons]
    · rw [pushChain, if_neg hc]
      rw [List.lookup_cons, List.lookup_cons]
      rw [show (c == c') = false from beq_eq_false_iff_ne.2 (fun h => hc h.symm)]
      exact ih

/-- Pushing onto another key leaves a lookup unchanged. -/
lemma lookup_pushChain_ne (c c' : JSStr) (b : BBAtom) (hne : c' ≠ c) :
    ∀ ch : List (JSStr × List BBAtom),
      List.lookup c' (pushChain ch c b) = List.lookup c' ch := by
  intro ch
  induction ch with
  | nil =>
    simp only [pushChain, List.lookup_cons, List.lookup_nil]
    rw [show (c' == c) = false from beq_eq_false_iff_ne.2 hne]
  | cons cg rest ih =>
    rcases cg with ⟨c'', g⟩
    by_cases hc : c'' = c
    · subst hc
      rw [pushChain, if_pos rfl, List.lookup_cons, List.lookup_cons]
      rw [show (c' == c'') = false from beq_eq_false_iff_ne.2 hne]
    · rw [pushChain, if_neg hc, List.lookup_cons, List.lookup_cons]
      cases hb : c' == c''
      · exact ih
      · rfl

/-- Pushing extends the key list only on a fresh key. -/
lemma keys_pushChain (c : JSStr) (b : BBAtom) :
    ∀ ch : List (JSStr × List BBAtom),
      (pushChain ch c b).map Prod.fst =
        if c ∈ ch.map Prod.fst then ch.map Prod.fst else ch.map Prod.fst ++ [c] := by
  intro ch
  induction ch with
  | nil => simp [pushChain]
  | cons cg rest ih =>
    rcases cg with ⟨c', g⟩
    by_cases hc : c' = c
    · subst hc
      simp [pushChain]
    · rw [pushChain, if_neg hc]
      simp only [List.map_cons, List.mem_cons]
      rw [ih]
      by_cases hmem : c ∈ rest.map Prod.fst
      · rw [if_pos hmem, if_pos (Or.inr hmem)]
      · rw [if_neg hmem, if_neg (by
          intro hor
          rcases hor with hor | hor
          · exact hc hor.symm
          · exact hmem hor)]
        rfl

/-- In a duplicate-free association list, membership determines the
lookup. -/
lemma lookup_of_mem_nodupKeys {β : Type} (c : JSStr) (g : β) :
    ∀ ch : List (JSStr × β), (ch.map Prod.fst).Nodup → (c, g) ∈ ch →
      List.lookup c ch = some g := by
  intro ch
  induction ch with
  | nil => intro _ h; cases h
  | cons cg rest ih =>
    intro hnd hmem
    rcases cg with ⟨c', g'⟩
    rw [List.map_cons, List.nodup_cons] at hnd
    rcases List.mem_cons.1 hmem with heq | hmem'
    · obtain ⟨h1, h2⟩ := Prod.mk.injEq _ _ _ _ ▸ heq
      subst h1
      subst h2
      rw [List.lookup_cons, beq_self_eq_true]
    · by_cases hc : c = c'
      · subst hc
        exact absurd (List.mem_map_of_mem Prod.fst hmem') hnd.1
      · rw [List.lookup_cons,
          show (c == c') = false from beq_eq_false_iff_ne.2 hc]
        exact ih hnd.2 hmem'

/-- The grouping fold of `extractBackboneTrace`, characterized per
chain key: each key's group is its CA projections in file order. -/
lemma buildChains_lookup_aux :
    ∀ (atoms : List Atom) (chains : List (JSStr × List BBAtom)) (c : JSStr),
      List.lookup c (atoms.foldl
        (fun chains a =>
          if a.name = str "CA" then pushChain chains (effChain a) (projBB a) else chains)
        chains) =
      match List.lookup c chains with
      | some g => some (g ++ caProj atoms c)
      | none => if caProj atoms c = [] then none else some (caProj atoms c) := by
  intro atoms
  induction atoms with
  | nil =>
    intro chains c
    simp only [List.foldl_nil, caProj, List.filter_nil, List.map_nil]
    cases List.lookup c chains <;> simp
  | cons a rest ih =>
    intro chains c
    simp only [List.foldl_cons]
    by_cases hname : a.name = str "CA"
    · rw [if_pos hname]
      by_cases hch : effChain a = c
      · have hfilter : caProj (a :: rest) c = projBB a :: caProj rest c := by
          simp only [caProj, List.filter_cons, decide_eq_true_eq]
          rw [if_pos ⟨hname, hch⟩, List.map_cons]
        rw [ih (pushChain chains (effChain a) (projBB a)) c, hch,
          lookup_pushChain_self, hfilter]
        cases hl : List.lookup c chains with
        | some g => simp [List.append_assoc]
        | none => simp
      · have hfilter : caProj (a :: rest) c = caProj rest c := by
          simp only [caProj, List.filter_cons, decide_eq_true_eq]
          rw [if_neg (by
            intro hand
            exact hch hand.2)]
        rw [ih (pushChain chains (effChain a) (projBB a)) c,
          lookup_pushChain_ne _ _ _ (fun h => hch h.symm), hfilter]
    · rw [if_neg hname]
      have hfilter : caProj (a :: rest) c = caProj rest c := by
        simp only [caProj, List.filter_cons, decide_eq_true_eq]
        rw [if_neg (by
          intro hand
          exact hname hand.1)]
      rw [ih chains c, hfilter]

/-- The chain keys of the grouping fold stay duplicate-free. -/
lemma buildChains_keys_nodup (atoms : List Atom) :
    ((buildChains atoms).map Prod.fst).Nodup := by
  have aux : ∀ (l : List Atom) (chains : List (JSStr × List BBAtom)),
      (chains.map Prod.fst).Nodup →
      ((l.foldl
        (fun chains a =>
          if a.name = str "CA" then pushChain chains (effChain a) (projBB a) else chains)
        chains).map Prod.fst).Nodup := by
    intro l
    induction l with
    | nil => intro chains h; exact h
    | cons a rest ih =>
      intro chains h
      rw [List.foldl_cons]
      refine ih _ ?_
      by_cases hname : a.name = str "CA"
      · rw [if_pos hname, keys_pushChain]
        by_cases hmem : effChain a ∈ chains.map Prod.fst
        · rw [if_pos hmem]; exact h
        · rw [if_neg hmem]
          rw [List.nodup_append]
          exact ⟨h, List.nodup_singleton _, by
            intro x hx hxs
            rw [List.mem_singleton] at hxs
            subst hxs
            exact hmem hx⟩
      · rw [if_neg hname]; exact h
  exact aux atoms [] List.nodup_nil

/-- Every group built by `buildChains` is exactly its chain's CA
projection list. -/
lemma buildChains_group (atoms : List Atom) (cg : JSStr × List BBAtom)
    (h : cg ∈ buildChains atoms) : cg.2 = caProj atoms cg.1 := by
  have hl : List.lookup cg.1 (buildChains atoms) = some cg.2 := by
    rcases cg with ⟨c, g⟩
    exact lookup_of_mem_nodupKeys c g _ (buildChains_keys_nodup atoms) h
  rw [buildChains] at hl
  rw [buildChains_lookup_aux atoms [] cg.1] at hl
  simp only [List.lookup_nil] at hl
  by_cases hemp : caProj atoms cg.1 = []
  · rw [if_pos hemp] at hl
    cases hl
  · rw [if_neg hemp] at hl
    exact (Option.some_injective _ hl).symm

/-- Adjacent-pair membership: an element of `l.zip l.tail` sits at
consecutive positions of `l`. -/
lemma mem_zip_tail {α : Type} : ∀ (l : List α) (p : α × α), p ∈ l.zip l.tail →
    ∃ i, l[i]? = some p.1 ∧ l[i + 1]? = some p.2
  | [], p, h => by cases h
  | [a], p, h => by cases h
  | a :: b :: rest, p, h => by
    rcases List.mem_cons.1 h with heq | hmem
    · subst heq
      exact ⟨0, rfl, by simp⟩
    · obtain ⟨i, h1, h2⟩ := mem_zip_tail (b :: rest) p hmem
      exact ⟨i + 1, by simpa using h1, by simpa using h2⟩

/-- Counting a guarded `filterMap`: one output per passing element. -/
lemma length_filterMap_guard {α β : Type} (q : α → Bool) (f : α → β) :
    ∀ l : List α,
      (l.filterMap (fun a => if q a then some (f a) else none)).length
        = (l.filter q).length := by
  intro l
  induction l with
  | nil => rfl
  | cons a rest ih =>
    rw [List.filterMap_cons, List.filter_cons]
    by_cases hq : q a = true
    · simp [hq, ih]
    · simp [hq, ih]

/-- A member of the sorted CA list of chain `c` comes from a CA atom of
that chain. -/
lemma mem_sortedCA (atoms : List Atom) (c : JSStr) (x : BBAtom)
    (h : x ∈ sortedCA atoms c) :
    ∃ a ∈ atoms, a.name = str "CA" ∧ effChain a = c ∧ projBB a = x := by
  rw [sortedCA] at h
  have hp := (List.mergeSort_perm (caProj atoms c) resSeqLe).mem_iff.1 h
  rw [caProj, List.mem_map] at hp
  obtain ⟨a, ha, rfl⟩ := hp
  rw [List.mem_filter, decide_eq_true_eq] at ha
  exact ⟨a, ha.1, ha.2.1, ha.2.2, rfl⟩

/-- Claim C5: every backbone segment joins two CA atoms of one and the
same chain that are adjacent in that chain's CA list after the
ascending residue-sequence sort, with a residue gap of at most 2; and
the segment count per chain equals the number of adjacent sorted pairs
within the gap tolerance (an adjacent pair with a larger gap produces
no segment and no error).  Numeric residue numbers are assumed for CA
atoms, since the JS sort comparator is unspecified on `NaN`. -/
theorem claim5_backbone (atoms : List Atom)
    (hnum : ∀ a ∈ atoms, a.name = str "CA" → a.resSeq.isSome) :
    (∀ seg ∈ (extractBackboneTrace atoms).segments,
      ∃ i cur nxt,
        (sortedCA atoms seg.chainId)[i]? = some cur
        ∧ (sortedCA atoms seg.chainId)[i + 1]? = some nxt
        ∧ seg.segStart = (cur.x, cur.y, cur.z)
        ∧ seg.segEnd = (nxt.x, nxt.y, nxt.z)
        ∧ (∃ m n : Int, cur.resSeq = some m ∧ nxt.resSeq = some n
            ∧ (n - m).natAbs ≤ 2)
        ∧ (∃ a ∈ atoms, a.name = str "CA" ∧ effChain a = seg.chainId ∧ projBB a = cur)
        ∧ (∃ b ∈ atoms, b.name = str "CA" ∧ effChain b = seg.chainId ∧ projBB b = nxt))
    ∧ (extractBackboneTrace atoms).segments.length =
        ((extractBackboneTrace atoms).chains.map (fun c =>
          (((sortedCA atoms c).zip (sortedCA atoms c).tail).filter
            (fun p => gapOk p.1 p.2)).length)).sum := by
  constructor
  · intro seg hseg
    have hseg' : seg ∈ ((buildChains atoms).map
        (fun cg => (cg.1, cg.2.mergeSort resSeqLe))).flatMap
        (fun cg => segsOf cg.1 cg.2) := hseg
    rcases List.mem_flatMap.1 hseg' with ⟨scg, hscg, hmem⟩
    rcases List.mem_map.1 hscg with ⟨cg, hcg, rfl⟩
    have hgroup : cg.2 = caProj atoms cg.1 := buildChains_group atoms cg hcg
    rw [segsOf, List.mem_filterMap] at hmem
    obtain ⟨p, hp, hpif⟩ := hmem
    by_cases hgap : gapOk p.1 p.2 = true
    · rw [if_pos hgap] at hpif
      have hseg_eq := Option.some_injective _ hpif
      subst hseg_eq
      have hsort : cg.2.mergeSort resSeqLe = sortedCA atoms cg.1 := by
        rw [hgroup, sortedCA]
      rw [hsort] at hp
      obtain ⟨i, h1, h2⟩ := mem_zip_tail _ p hp
      have hmn : ∃ m n : Int, p.1.resSeq = some m ∧ p.2.resSeq = some n
          ∧ (n - m).natAbs ≤ 2 := by
        cases hm : p.1.resSeq with
        | none =>
          simp only [gapOk, hm] at hgap
          cases hgap
        | some m =>
          cases hn : p.2.resSeq with
          | none =>
            simp only [gapOk, hm, hn] at hgap
            cases hgap
          | some n =>
            simp only [gapOk, hm, hn, decide_eq_true_eq] at hgap
            exact ⟨m, n, rfl, rfl, hgap⟩
      exact ⟨i, p.1, p.2, h1, h2, rfl, rfl, hmn,
        mem_sortedCA atoms cg.1 p.1 (List.getElem?_mem h1),
        mem_sortedCA atoms cg.1 p.2 (List.getElem?_mem h2)⟩
    · rw [if_neg hgap] at hpif
      cases hpif
  · have hseg_list : (extractBackboneTrace atoms).segments =
        ((buildChains atoms).map (fun cg => (cg.1, cg.2.mergeSort resSeqLe))).flatMap
          (fun cg => segsOf cg.1 cg.2) := rfl
    have hchains : (extractBackboneTrace atoms).chains =
        (buildChains atoms).map Prod.fst := rfl
    rw [hseg_list, hchains, List.length_flatMap, List.map_map, List.map_map]
    congr 1
    refine List.map_congr_left ?_
    intro cg hcg
    simp only [Function.comp]
    rw [buildChains_group atoms cg hcg]
    rw [show (caProj atoms cg.1).mergeSort resSeqLe = sortedCA atoms cg.1 from rfl]
    rw [segsOf, length_filterMap_guard]

/-- Three CA atoms of chain A, out of order, with a gap of 3 between
residues 2 and 5 (one chain break). -/
def caAtomsW : List Atom :=
  [{ serial := some 1, name := str "CA", resName := str "ALA", chainId := str "A",
     resSeq := some 5, x := some 0, y := some 0, z := some 5, element := str "C" },
   { serial := some 2, name := str "CA", resName := str "ALA", chainId := str "A",
     resSeq := some 1, x := some 0, y := some 0, z := some 1, element := str "C" },
   { serial := some 3, name := str "CA", resName := str "ALA", chainId := str "A",
     resSeq := some 2, x := some 0, y := some 0, z := some 2, element := str "C" }]

/-- Closed witness for claim C5 at three concrete CA atoms. -/
theorem claim5_witness :
    (∀ a ∈ caAtomsW, a.name = str "CA" → a.resSeq.isSome)
    ∧ (extractBackboneTrace caAtomsW).segments.length =
        ((extractBackboneTrace caAtomsW).chains.map (fun c =>
          (((sortedCA caAtomsW c).zip (sortedCA caAtomsW c).tail).filter
            (fun p => gapOk p.1 p.2)).length)).sum :=
  ⟨by decide, (claim5_backbone caAtomsW (by decide)).2⟩
